import Mathlib

/-!
Shallow embedding of the mlb-unicorn-engine ranking pipeline
(`backend/app/unicorns/{engine,scoring,patterns,sql_builder,metrics}.py`).

Modelling conventions:
* Python floats are modelled as exact rationals (`ℚ`); the only genuinely
  irrational operation, `math.sqrt` / `statistics.stdev`, is modelled with
  `Real.sqrt` over `ℝ`.
* Python strings are modelled as `List Char` so that all string operations
  kernel-reduce (`str.replace` is `replaceAll` below, left-to-right and
  non-overlapping, exactly as in CPython).
* Python `dict` iteration order is insertion order (CPython ≥ 3.7), which the
  embedding reflects wherever the source iterates a dict.
-/

attribute [local semireducible] Rat.mul Rat.inv Rat.sub Rat.add

/-- One step of left-to-right non-overlapping replacement: `leadsWith p l`
is true iff `p` is an initial segment of `l` (model of `str.startswith`
applied at the scan position). -/
def leadsWith : List Char → List Char → Bool
  | [], _ => true
  | _ :: _, [] => false
  | a :: as, b :: bs => a = b && leadsWith as bs

/-- Fuel-driven core of `str.replace`: scans `s` left to right; whenever the
(nonempty) pattern matches at the current position the replacement is emitted
and the scan continues after the matched segment.  The fuel is an upper bound
on the number of scan steps; `replaceAll` supplies `s.length`, which always
suffices. -/
def replaceAllFuel (pat rep : List Char) : ℕ → List Char → List Char
  | _, [] => []
  | 0, l => l
  | fuel + 1, c :: rest =>
    if pat ≠ [] ∧ leadsWith pat (c :: rest) then
      rep ++ replaceAllFuel pat rep fuel (List.drop (pat.length - 1) rest)
    else
      c :: replaceAllFuel pat rep fuel rest

/-- Model of Python `s.replace(pat, rep)` for a nonempty pattern:
left-to-right, non-overlapping, replaces every occurrence. -/
def replaceAll (s pat rep : List Char) : List Char :=
  replaceAllFuel pat rep s.length s

/-- The decimal digit character for `d < 10`. -/
def digitChar (d : ℕ) : Char := Char.ofNat (48 + d)

/-- Fuel-driven most-significant-first decimal digit list of a natural. -/
def natCharsAux : ℕ → ℕ → List Char
  | 0, _ => []
  | fuel + 1, n => if n < 10 then [digitChar n] else natCharsAux fuel (n / 10) ++ [digitChar (n % 10)]

/-- Decimal digit string of a natural number. -/
def natChars (n : ℕ) : List Char := natCharsAux (n + 1) n

/-- Left-pad a fractional digit string to exactly three digits. -/
def padTo3 (l : List Char) : List Char :=
  if l.length = 1 then '0' :: '0' :: l else if l.length = 2 then '0' :: l else l

/-- Digits of a non-negative thousandths count `m` rendered as `int.frac3`. -/
def fmt3Core (m : ℕ) : List Char :=
  natChars (m / 1000) ++ '.' :: padTo3 (natChars (m % 1000))

/-- Model of the Python f-string `f"{v:.3f}"`: always exactly three decimal
places.  Rounding to the nearest thousandth is modelled with `round`; it is
exact on every value that is an integer multiple of `1/1000` (binary-float
tie-breaking is not modelled and is never exercised by the theorems below). -/
def fmt3 (q : ℚ) : List Char :=
  if q < 0 then '-' :: fmt3Core (round (-q * 1000)).toNat
  else fmt3Core (round (q * 1000)).toNat

/-- The literal placeholder `{{player_name}}` (source `engine.py`, line 37,
built from the `replacements` dict keys). -/
def playerNamePat : List Char := "\x7b\x7bplayer_name\x7d\x7d".toList

/-- The literal placeholder `{{team_name}}`. -/
def teamNamePat : List Char := "\x7b\x7bteam_name\x7d\x7d".toList

/-- The literal placeholder `{{metric_value}}`. -/
def metricValuePat : List Char := "\x7b\x7bmetric_value\x7d\x7d".toList

/-- The literal placeholder `{{sample_size}}` (appears in templates; note the
source `_render_description` has no replacement entry for it). -/
def sampleSizePat : List Char := "\x7b\x7bsample_size\x7d\x7d".toList

/-- Model of `engine._render_description`: empty template renders empty;
otherwise the three replacements `player_name`, `team_name`, `metric_value`
are applied in dict insertion order.  `None` player/team render as the empty
string; a `None` metric renders as the empty string, any other metric as
`f"{v:.3f}"`.  There is no `sample_size` replacement in the source. -/
def renderDescription (template : List Char) (player team : Option (List Char))
    (metric : Option ℚ) : List Char :=
  if template = [] then []
  else
    let d1 := replaceAll template playerNamePat (player.getD [])
    let d2 := replaceAll d1 teamNamePat (team.getD [])
    replaceAll d2 metricValuePat (match metric with | some m => fmt3 m | none => [])

/-- JSON-like values for `PatternTemplate.filters_json`.  Arrays and objects
are encoded in cons form (`arrCons`/`objCons`) so that every scan over them is
structurally recursive and kernel-reducible; `objCons` chains model Python
dicts in insertion order. -/
inductive Jx where
  | null : Jx
  | str (s : List Char) : Jx
  | num (q : ℚ) : Jx
  | boolean (b : Bool) : Jx
  | arrNil : Jx
  | arrCons (head : Jx) (tail : Jx) : Jx
  | objNil : Jx
  | objCons (key : List Char) (val : Jx) (tail : Jx) : Jx
deriving DecidableEq

/-- Model of `models.PatternTemplate` restricted to the columns the engine
reads.  Optional numeric columns are `Option` (SQL NULL = `none`); strings are
`List Char`. -/
structure PatternTemplate where
  pattern_id : List Char
  entity_type : List Char
  base_table : List Char
  metric : List Char
  metric_expr : Option (List Char)
  order_direction : Option (List Char)
  min_sample : Option ℤ
  target_sample : Option ℤ
  unicorn_weight : Option ℚ
  public_weight : Option ℚ
  complexity_score : Option ℤ
  enabled : Bool
  requires_count : Bool
  count_value : Option (List Char)
  category : Option (List Char)
  filters_json : Jx
  description_template : List Char
deriving DecidableEq

/-- Parse result of `float(metric_value)` on a raw candidate row: the value is
SQL NULL (`null`), not convertible (`notFloat`, the `TypeError/ValueError`
case), or a float which is NaN, `+inf`, `-inf`, or finite. -/
inductive MetricField where
  | null : MetricField
  | notFloat : MetricField
  | nanV : MetricField
  | posInfV : MetricField
  | negInfV : MetricField
  | finV (q : ℚ) : MetricField
deriving DecidableEq

/-- Parse result of `int(sample_size)`: the key is absent (`missing`, which
`r.get("sample_size", 0)` defaults to `0`), not convertible (`notInt`, the
caught `TypeError/ValueError` case), or an integer (possibly negative). -/
inductive SampleField where
  | missing : SampleField
  | notInt : SampleField
  | val (z : ℤ) : SampleField
deriving DecidableEq

/-- One raw candidate row as fetched by `evaluate_pattern`
(`SELECT entity_id, metric_value, sample_size`). -/
structure RawRow where
  entity_id : ℤ
  metric_value : MetricField
  sample_size : SampleField
deriving DecidableEq

/-- A non-NaN float value surviving the metric coercion: finite or infinite. -/
inductive NumVal where
  | fin (q : ℚ) : NumVal
  | posInf : NumVal
  | negInf : NumVal
deriving DecidableEq

/-- Finite part of a kept metric value.  Infinite values are mapped to junk
(`0`); no theorem below evaluates the scoring arithmetic on an infinite
metric, this only keeps the downstream pipeline total. -/
def NumVal.toRat : NumVal → ℚ
  | .fin q => q
  | .posInf => 0
  | .negInf => 0

/-- The metric coercion of `compute_scores` (scoring.py lines 60-69): `None`,
unconvertible values and NaN are dropped; finite values and both infinities
are kept (the source's `math.isnan` test lets infinities through). -/
def keepMetric : MetricField → Option NumVal
  | .null => none
  | .notFloat => none
  | .nanV => none
  | .posInfV => some .posInf
  | .negInfV => some .negInf
  | .finV q => some (.fin q)

/-- The sample-size coercion of `compute_scores` (lines 70-74): a missing key
defaults to `0`, a failed `int()` is caught and coerced to `0`, and any
integer — including a negative one — is kept as is.  No row is dropped here. -/
def coerceSample : SampleField → ℤ
  | .missing => 0
  | .notInt => 0
  | .val z => z

/-- A cleaned candidate row (`cleaned_rows` element). -/
structure CleanRow where
  entity_id : ℤ
  metric_value : NumVal
  sample_size : ℤ
deriving DecidableEq

/-- The cleaned form of one raw row, used to state the filter/map normal form
of the cleaning loop. -/
def coerceRow (r : RawRow) : CleanRow :=
  ⟨r.entity_id, (keepMetric r.metric_value).getD (.fin 0), coerceSample r.sample_size⟩

/-- The row-cleaning loop of `compute_scores` (lines 59-75). -/
def cleanRows : List RawRow → List CleanRow
  | [] => []
  | r :: rest =>
    match keepMetric r.metric_value with
    | none => cleanRows rest
    | some v => ⟨r.entity_id, v, coerceSample r.sample_size⟩ :: cleanRows rest

/-- Model of `statistics.mean` under the source's `try/except`: the except
branch (fewer than two values, where `statistics.stdev` raises) sets the mean
to `0.0`. -/
def meanVal (l : List ℚ) : ℚ :=
  if l.length < 2 then 0 else l.sum / l.length

/-- Sample variance, the square of `statistics.stdev` (denominator `n - 1`);
`0` in the except branch (fewer than two values). -/
def sampleVar (l : List ℚ) : ℚ :=
  if l.length < 2 then 0
  else (l.map (fun v => (v - l.sum / l.length) ^ 2)).sum / ((l.length : ℚ) - 1)

/-- Candidate `j` sorts strictly before candidate `i` in the stable sort of
`_rank_spread_z` (scoring.py line 42): a strictly better metric value, or an
equal value and a smaller original index.  CPython's `sort` is stable, so the
position of element `i` in the sorted list is exactly the number of indices
`j` with this property. -/
def beatsIdx (values : List ℚ) (desc : Bool) (j i : ℕ) : Bool :=
  (if desc then values.getD i 0 < values.getD j 0 else values.getD j 0 < values.getD i 0)
    || (values.getD j 0 = values.getD i 0 && j < i)

/-- Rank position (0-based) of original index `i` in the stable sort of
`_rank_spread_z`. -/
def rankPos (values : List ℚ) (desc : Bool) (i : ℕ) : ℕ :=
  (List.range values.length).countP (fun j => beatsIdx values desc j i)

/-- Model of `_rank_spread_z` (scoring.py lines 36-47): a single candidate
gets `2.0`; otherwise original index `i` gets `2.0 * (1 - rank_idx / denom)`
with `denom = max(1, n-1)`. -/
def rankSpreadZ (values : List ℚ) (desc : Bool) : List ℚ :=
  if values.length = 1 then [2]
  else
    (List.range values.length).map
      (fun i => 2 * (1 - (rankPos values desc i : ℚ) / ((max 1 (values.length - 1) : ℕ) : ℚ)))

/-- The normalization-branch test of `compute_scores` (line 91).  The source
tests `std_val <= 1e-9` with `std_val = sqrt(variance)`; since both sides are
non-negative this is equivalent to `variance ≤ 1e-18`, which keeps the
definition decidable.  Theorem `stdevCond_iff_sqrt` below proves the
equivalence with the source's square-root form. -/
def usesRankSpread (values : List ℚ) : Bool :=
  decide (sampleVar values ≤ 1 / 10 ^ 18) || decide (values.length < 5)

/-- The normalized values `z_values` of `compute_scores` (lines 91-97):
rank-spread transform in the degenerate branch, z-scores
(`(v-mean)/stdev` for descending, `(mean-v)/stdev` for ascending) otherwise. -/
noncomputable def zValues (values : List ℚ) (desc : Bool) : List ℝ :=
  if usesRankSpread values then (rankSpreadZ values desc).map (fun (q : ℚ) => (q : ℝ))
  else
    values.map (fun (v : ℚ) =>
      if desc then ((v : ℝ) - (meanVal values : ℝ)) / Real.sqrt ((sampleVar values : ℝ))
      else ((meanVal values : ℝ) - (v : ℝ)) / Real.sqrt ((sampleVar values : ℝ)))

/-- The sample-size confidence weight (lines 106-108):
`sqrt(sample_size / (sample_size + target_sample))` when `target_sample > 0`,
else `1.0`. -/
noncomputable def sampleWeight (target s : ℤ) : ℝ :=
  if 0 < target then Real.sqrt ((s : ℝ) / ((s : ℝ) + (target : ℝ))) else 1

/-- Model of `(pattern.order_direction or "desc").lower() == "desc"`
(line 82): `None` and the empty string fall back to `"desc"`. -/
def descendingOf (p : PatternTemplate) : Bool :=
  match p.order_direction with
  | none => true
  | some s => if s = [] then true else s.map Char.toLower = "desc".toList

/-- Model of `pattern.target_sample or 0` (line 99). -/
def targetSampleOf (p : PatternTemplate) : ℤ :=
  match p.target_sample with
  | none => 0
  | some z => z

/-- Model of `float(pattern.unicorn_weight or 1.0)` (line 100); note `0.0` is
falsy in Python and also falls back to `1.0`. -/
def unicornWeightOf (p : PatternTemplate) : ℚ :=
  match p.unicorn_weight with
  | none => 1
  | some q => if q = 0 then 1 else q

/-- The category-prefix table `CATEGORY_PUBLIC_WEIGHT` of `metrics.py`, in
dict insertion order, with the tier defaults already substituted. -/
def categoryPublicWeight : List (List Char × ℚ) :=
  [("A_BARRELS".toList, 1.2), ("B_DIRECTION".toList, 1.0), ("COUNT".toList, 1.2),
   ("STARTER".toList, 1.2), ("RELIEVER".toList, 1.2), ("FATIGUE".toList, 1.2),
   ("PARK".toList, 1.2)]

/-- First entry of the table whose key is a prefix of the category
(`category.startswith(key)`); `0.8` (tier3) when none matches. -/
def categoryWeightLookup (s : List Char) : List (List Char × ℚ) → ℚ
  | [] => 0.8
  | (k, w) :: rest => if leadsWith k s then w else categoryWeightLookup s rest

/-- Model of `metrics.public_weight_for_category`: falsy category (absent or
empty) gives the tier2 default `1.0`, otherwise the first prefix match in the
table, else tier3 `0.8`. -/
def publicWeightForCategory (c : Option (List Char)) : ℚ :=
  match c with
  | none => 1
  | some s => if s = [] then 1 else categoryWeightLookup s categoryPublicWeight

/-- Model of `float(pattern.public_weight or public_weight_for_category(...))`
(line 101); `0.0` is falsy and falls back to the category default. -/
def publicWeightOf (p : PatternTemplate) : ℚ :=
  match p.public_weight with
  | none => publicWeightForCategory p.category
  | some q => if q = 0 then publicWeightForCategory p.category else q

/-- The `ScoredRow` dataclass of scoring.py, generic over the score field so
that the plateau-breaking pass can be exercised both at `ℝ` (the pipeline) and
at `ℚ` (decidable witnesses). -/
structure ScoredRow (K : Type) where
  entity_id : ℤ
  metric_value : ℚ
  sample_size : ℤ
  z_raw : K
  z_adjusted : K
  score : K
  rank : ℕ
deriving DecidableEq

/-- Tail of the plateau-breaking pass (scoring.py lines 137-145): `prev` is
the already-adjusted score of the preceding row; when `prev > 0` and the gap
to the current score is below `1%` of `prev`, the current score is clamped to
`0.99 * prev` and `z_adjusted` is rescaled proportionally (when the current
score is nonzero). -/
def plateauGo {K : Type} [LinearOrderedField K] (prev : K) : List (ScoredRow K) → List (ScoredRow K)
  | [] => []
  | r :: rest =>
    if 0 < prev ∧ prev - r.score < 1 / 100 * prev then
      { r with
        score := prev * (99 / 100),
        z_adjusted := if r.score ≠ 0 then r.z_adjusted * (prev * (99 / 100) / r.score) else r.z_adjusted
      } :: plateauGo (prev * (99 / 100)) rest
    else
      r :: plateauGo r.score rest

/-- The plateau-breaking pass over the sorted scored list. -/
def plateauPass {K : Type} [LinearOrderedField K] : List (ScoredRow K) → List (ScoredRow K)
  | [] => []
  | r :: rest => r :: plateauGo r.score rest

/-- Dense 1-based rank assignment (lines 147-148). -/
def assignRanksFrom {K : Type} (n : ℕ) : List (ScoredRow K) → List (ScoredRow K)
  | [] => []
  | r :: rest => { r with rank := n } :: assignRanksFrom (n + 1) rest

/-- Rank assignment starting at 1. -/
def assignRanks {K : Type} (l : List (ScoredRow K)) : List (ScoredRow K) :=
  assignRanksFrom 1 l

/-- The sort key of `compute_scores` (lines 127-135):
`(-score, -sample_size, direction * metric_value, entity_id)`, with
`direction = -1` for descending patterns and `1` otherwise.  Python compares
key tuples lexicographically, which `Prod.Lex` models. -/
def sortKey {K : Type} [LinearOrderedField K] (desc : Bool) (r : ScoredRow K) :
    K ×ₗ (ℤ ×ₗ (ℚ ×ₗ ℤ)) :=
  toLex (-r.score, toLex (-r.sample_size,
    toLex ((if desc then -r.metric_value else r.metric_value), r.entity_id)))

/-- The ascending sort order on the key tuples. -/
def sortKeyLE {K : Type} [LinearOrderedField K] (desc : Bool) (a b : ScoredRow K) : Prop :=
  sortKey desc a ≤ sortKey desc b

instance sortKeyLEDec {K : Type} [LinearOrderedField K] (desc : Bool) :
    DecidableRel (fun a b : ScoredRow K => sortKeyLE desc a b) := fun a b =>
  inferInstanceAs (Decidable (sortKey desc a ≤ sortKey desc b))

instance sortKeyLETotal {K : Type} [LinearOrderedField K] (desc : Bool) :
    IsTotal (ScoredRow K) (sortKeyLE desc) :=
  ⟨fun a b => le_total (sortKey desc a) (sortKey desc b)⟩

instance sortKeyLETrans {K : Type} [LinearOrderedField K] (desc : Bool) :
    IsTrans (ScoredRow K) (sortKeyLE desc) :=
  ⟨fun _ _ _ hab hbc => le_trans hab hbc⟩

/-- The per-row score assembly of `compute_scores` (lines 104-125): pair each
cleaned row with its normalized value, apply the sample-size confidence
weight, and multiply in the unicorn, public and market weights.  The `rank`
field starts at `0` exactly as in the dataclass construction. -/
noncomputable def scoreBase (p : PatternTemplate) (marketWeight : ℤ → ℝ)
    (cleaned : List CleanRow) (zs : List ℝ) : List (ScoredRow ℝ) :=
  List.zipWith
    (fun (c : CleanRow) (z : ℝ) =>
      ⟨c.entity_id, c.metric_value.toRat, c.sample_size, z,
        z * sampleWeight (targetSampleOf p) c.sample_size,
        z * sampleWeight (targetSampleOf p) c.sample_size
          * (unicornWeightOf p : ℝ) * (publicWeightOf p : ℝ) * marketWeight c.entity_id, 0⟩)
    cleaned zs

/-- Model of `compute_scores` (scoring.py lines 50-149): clean, normalize,
weight, multiply in the static and market weights, sort, break plateaus, and
assign dense ranks. -/
noncomputable def computeScores (p : PatternTemplate) (rows : List RawRow)
    (marketWeight : ℤ → ℝ) : List (ScoredRow ℝ) :=
  if cleanRows rows = [] then []
  else
    assignRanks (plateauPass (List.insertionSort (sortKeyLE (descendingOf p))
      (scoreBase p marketWeight (cleanRows rows)
        (zValues ((cleanRows rows).map (fun c => c.metric_value.toRat)) (descendingOf p)))))

/-- `engine.MAX_PER_PATTERN_PER_DAY`. -/
def MAX_PER_PATTERN_PER_DAY : ℕ := 5

/-- `engine.MIN_REL_GAP` (1.1% spacing for the final Top 50). -/
def MIN_REL_GAP : ℚ := 11 / 1000

/-- `engine.TOP50_MAX_APPEARANCES_LOOKBACK` (environment default `3`). -/
def TOP50_MAX_APPEARANCES_LOOKBACK : ℕ := 3

/-- `engine.TOP10_MAX_APPEARANCES_LOOKBACK` (environment default `2`). -/
def TOP10_MAX_APPEARANCES_LOOKBACK : ℕ := 2

/-- One `models.UnicornTop50Daily` row; `run_date` is the date's ordinal. -/
structure Top50Entry where
  run_date : ℕ
  rank : ℕ
  entity_type : List Char
  entity_id : ℤ
  pattern_id : List Char
  metric_value : ℚ
  sample_size : ℤ
  score : ℚ
  description : List Char
deriving DecidableEq

/-- Tail of `engine.apply_min_score_spacing` (lines 46-52): `prev` is the
already-clamped score of the previous row (always `≥ 0`); the current score is
floored at `0`, capped at `prev * (1 - min_rel_gap)`, and floored at `0`
again. -/
def spacingGo (g : ℚ) (prev : ℚ) : List Top50Entry → List Top50Entry
  | [] => []
  | r :: rest =>
    let cur0 := max 0 r.score
    let cur1 := if cur0 > prev * (1 - g) then prev * (1 - g) else cur0
    let cur2 := max 0 cur1
    { r with score := cur2 } :: spacingGo g cur2 rest

/-- Model of `engine.apply_min_score_spacing` (lines 41-52), functional form
of the in-place mutation: the first row's score is floored at `0`, then each
later score is capped at `(1 - min_rel_gap)` times its predecessor. -/
def applyMinScoreSpacing (g : ℚ) : List Top50Entry → List Top50Entry
  | [] => []
  | r :: rest =>
    { r with score := max 0 r.score } :: spacingGo g (max 0 r.score) rest

/-- The `UnicornResult` columns read by `_select_top50`. -/
structure UResult where
  entity_type : List Char
  entity_id : ℤ
  pattern_id : List Char
  metric_value : ℚ
  sample_size : ℤ
  score : ℚ
deriving DecidableEq

/-- One joined row of the `generate_top50` select (result, player name, team
name, description template), already ordered by the statement's
`ORDER BY score DESC` when passed to the selection. -/
structure SelRow where
  result : UResult
  player_name : Option (List Char)
  team_name : Option (List Char)
  template : List Char
deriving DecidableEq

/-- The `UnicornTop50Daily` row built by `_select_top50` (lines 82-96) for an
accepted candidate, stamped with the run date and the prospective rank. -/
def mkEntry (d : ℕ) (row : SelRow) (rank : ℕ) : Top50Entry :=
  { run_date := d
    rank := rank
    entity_type := row.result.entity_type
    entity_id := row.result.entity_id
    pattern_id := row.result.pattern_id
    metric_value := row.result.metric_value
    sample_size := row.result.sample_size
    score := row.result.score
    description := renderDescription row.template row.player_name row.team_name
      (some row.result.metric_value) }

/-- Loop of `engine._select_top50` (lines 65-100).  State: `seen` entity ids,
per-pattern `counts`, and the accepted list `top`.  A row is skipped when its
entity was already accepted, its pattern reached the per-pattern cap, the
entity hit the Top-50 lookback ceiling, or (for a prospective rank `≤ 10`) the
Top-10 lookback ceiling; otherwise it is appended with rank `len(top) + 1`,
and the loop stops once rank `50` is reached. -/
def selectGo (d : ℕ) (recent50 recent10 : ℤ → ℕ) :
    List SelRow → List ℤ → (List Char → ℕ) → List Top50Entry → List Top50Entry
  | [], _, _, top => top
  | row :: rest, seen, counts, top =>
    if row.result.entity_id ∈ seen then
      selectGo d recent50 recent10 rest seen counts top
    else if MAX_PER_PATTERN_PER_DAY ≤ counts row.result.pattern_id then
      selectGo d recent50 recent10 rest seen counts top
    else if TOP50_MAX_APPEARANCES_LOOKBACK ≤ recent50 row.result.entity_id then
      selectGo d recent50 recent10 rest seen counts top
    else if top.length + 1 ≤ 10 ∧ TOP10_MAX_APPEARANCES_LOOKBACK ≤ recent10 row.result.entity_id then
      selectGo d recent50 recent10 rest seen counts top
    else if 50 ≤ top.length + 1 then top ++ [mkEntry d row (top.length + 1)]
    else
      selectGo d recent50 recent10 rest (row.result.entity_id :: seen)
        (fun q => if q = row.result.pattern_id then counts q + 1 else counts q)
        (top ++ [mkEntry d row (top.length + 1)])

/-- Model of `engine._select_top50`: the loop started on empty state. -/
def selectTop50 (d : ℕ) (rows : List SelRow) (recent50 recent10 : ℤ → ℕ) : List Top50Entry :=
  selectGo d recent50 recent10 rows [] (fun _ => 0) []

/-- The selection-plus-spacing composition performed by `generate_top50`
(lines 133-134) on the fetched rows. -/
def generateTop50 (d : ℕ) (rows : List SelRow) (recent50 recent10 : ℤ → ℕ) : List Top50Entry :=
  applyMinScoreSpacing MIN_REL_GAP (selectTop50 d rows recent50 recent10)

/-- Lower-casing of a Python string (`str.lower`). -/
def lowerStr (s : List Char) : List Char := s.map Char.toLower

/-- Substring test, model of Python `pat in s` for strings. -/
def containsSub : List Char → List Char → Bool
  | [], pat => pat.isEmpty
  | c :: rest, pat => leadsWith pat (c :: rest) || containsSub rest pat

/-- `patterns.BANNED_TERMS` (a set in the source; only membership of the
`any(...)` scan matters, so the iteration order is irrelevant). -/
def bannedTerms : List (List Char) :=
  ["inning".toList, "weather".toList, "wind".toList, "humidity".toList,
   "temperature".toList, "sequence".toList, "after fouling".toList,
   "after two".toList, "late innings".toList]

/-- `patterns.ALLOWED_COUNTS`. -/
def allowedCounts : List (List Char) :=
  ["3-0".toList, "0-2".toList, "3-2".toList]

/-- The string case of `patterns._contains_banned_term`: some banned term is
a substring of the lower-cased value. -/
def hasBannedTerm (s : List Char) : Bool :=
  bannedTerms.any (fun t => containsSub (lowerStr s) t)

/-- Model of `patterns._contains_banned_term`: strings are scanned for banned
substrings, dicts scan every key (a string) and recurse into every value,
lists recurse into every element; all other values are clean.  Note that the
term `"wind"` is a substring of the key `"window"`, so any `filters_json`
declaring a window trips this scan. -/
def containsBanned : Jx → Bool
  | .null | .num _ | .boolean _ | .arrNil | .objNil => false
  | .str s => hasBannedTerm s
  | .arrCons h t => containsBanned h || containsBanned t
  | .objCons k v t => hasBannedTerm k || containsBanned v || containsBanned t

/-- The string-value test of `patterns._invalid_count`: a string value not in
the allowed enumeration. -/
def strNotAllowedCount : Jx → Bool
  | .str s => decide (s ∉ allowedCounts)
  | _ => false

/-- Model of `patterns._invalid_count`: under a dict, a `"count_str"` key
whose string value is outside `ALLOWED_COUNTS` is invalid; values and list
elements are scanned recursively. -/
def invalidCount : Jx → Bool
  | .objCons k v t =>
    (k = "count_str".toList && strNotAllowedCount v) || invalidCount v || invalidCount t
  | .arrCons h t => invalidCount h || invalidCount t
  | _ => false

/-- Model of `patterns.validate_pattern` (lines 51-71): the accumulated list
of violation messages; the source raises `ValueError` exactly when this list
is nonempty.  Python truthiness: a `complexity_score` of `None` (or `0`)
skips the first check, a `count_value` of `None` or `""` skips the third. -/
def validatePattern (p : PatternTemplate) : List (List Char) :=
  (if (match p.complexity_score with | some c => decide (4 < c) | none => false) then
    ["complexity_score exceeds 4".toList] else [])
  ++ (if p.requires_count &&
        (match p.count_value with | none => true | some s => decide (s ∉ allowedCounts)) then
    ["requires_count set but count_value is invalid".toList] else [])
  ++ (if (match p.count_value with
          | some s => s ≠ [] && decide (s ∉ allowedCounts)
          | none => false) then
    ["count_value not in allowed set".toList] else [])
  ++ (if containsBanned p.filters_json then
    ["filters_json contains banned concept".toList] else [])
  ++ (if invalidCount p.filters_json then
    ["filters_json uses disallowed count".toList] else [])

/-- The keys of `metrics.METRIC_REGISTRY`.  The registry's SQL expression
strings are elided: every claim below depends only on membership (an unknown
key raises `KeyError`). -/
def metricRegistryNames : List (List Char) :=
  ["count_hr".toList, "hr_rate".toList, "hard_hit_rate".toList, "count_barrels".toList,
   "avg_ev".toList, "xwoba_avg".toList, "whiff_rate".toList, "contact_rate".toList,
   "chase_rate".toList]

/-- Fault model of `metrics.get_metric_expr`: a truthy (nonempty) override
expression is used verbatim; otherwise an unregistered metric name raises
`KeyError`. -/
def getMetricExprCheck (metric : List Char) (override : Option (List Char)) :
    Except (List Char) Unit :=
  if (match override with | some e => !e.isEmpty | none => false) then .ok ()
  else if decide (metric ∈ metricRegistryNames) then .ok ()
  else .error "Metric is not registered".toList

/-- First value under `key` in an object chain (`dict.get(key)`); `none` on
anything that is not an object. -/
def objGet : Jx → List Char → Option Jx
  | .objCons k v t, key => if k = key then some v else objGet t key
  | _, _ => none

/-- Whether a value is a dict (`isinstance(window, dict)`). -/
def isObj : Jx → Bool
  | .objNil => true
  | .objCons _ _ _ => true
  | _ => false

/-- The window type string of `_windowed_from_clause`
(`str(window.get("type") or "").strip().lower()`): a string value is
lower-cased, anything else behaves like a string outside the recognized set
(the theorems never exercise the `strip` or `str()`-of-non-string cases). -/
def windowTypeOf (w : Jx) : List Char :=
  match objGet w "type".toList with
  | some (.str s) => lowerStr s
  | _ => []

/-- Fault model of `sql_builder._windowed_from_clause` (lines 44-57): when
`filters_json.window` is a dict whose type is `last_n_pa`/`last_n_ab`, a
non-batter pattern or a base table outside `pitch_facts`/`pa_facts` raises
`ValueError`; every other shape falls back to the plain base table. -/
def windowChecks (p : PatternTemplate) : Except (List Char) Unit :=
  match objGet p.filters_json "window".toList with
  | some w =>
    if isObj w then
      if windowTypeOf w = "last_n_pa".toList ∨ windowTypeOf w = "last_n_ab".toList then
        if p.entity_type ≠ "batter".toList then
          .error "Window only supported for batter patterns".toList
        else if ¬(p.base_table = "pitch_facts".toList ∨ p.base_table = "pa_facts".toList) then
          .error "Window only supported for pitch_facts and pa_facts".toList
        else .ok ()
      else .ok ()
    else .ok ()
  | none => .ok ()

/-- Fault model of `sql_builder.build_query` (lines 108-131): the metric is
resolved first (line 109), then the window clause is built (line 131); the
filter clause and the SQL text itself are elided — no claim depends on them
and neither raises for the faults under study. -/
def buildQueryChecks (p : PatternTemplate) : Except (List Char) Unit :=
  match getMetricExprCheck p.metric p.metric_expr with
  | .error e => .error e
  | .ok _ => windowChecks p

/-- Loop of `engine.run_for_date` (lines 224-230): `validate_pattern` runs
inside `try/except ValueError` — a failing pattern is skipped and logged; but
`evaluate_pattern` (and the `build_query` call inside it) runs outside the
`try`, so a `KeyError` from the metric registry or a `ValueError` from the
window clause propagates and aborts the whole batch.  The value returned is
the list of evaluated pattern ids, or the aborting error. -/
def runBatchGo : List PatternTemplate → Except (List Char) (List (List Char))
  | [] => .ok []
  | p :: rest =>
    if validatePattern p ≠ [] then runBatchGo rest
    else
      match buildQueryChecks p with
      | .error e => .error e
      | .ok _ =>
        match runBatchGo rest with
        | .error e => .error e
        | .ok ids => .ok (p.pattern_id :: ids)

/-- Model of `engine.run_for_date` restricted to its pattern-fault control
flow: only enabled patterns are considered (`filter_by(enabled=True)`). -/
def runForDate (ps : List PatternTemplate) : Except (List Char) (List (List Char)) :=
  runBatchGo (ps.filter (fun p => p.enabled))

/-- One persisted `models.UnicornResult` row, generic over the score field
like `ScoredRow`. -/
structure ResultRow (K : Type) where
  run_date : ℕ
  pattern_id : List Char
  entity_type : List Char
  entity_id : ℤ
  rank : ℕ
  metric_value : ℚ
  sample_size : ℤ
  z_raw : K
  z_adjusted : K
  score : K
deriving DecidableEq

/-- The row constructed by `_persist_results` (engine.py lines 180-194). -/
def toResultRow {K : Type} (d : ℕ) (p : PatternTemplate) (r : ScoredRow K) : ResultRow K :=
  { run_date := d
    pattern_id := p.pattern_id
    entity_type := p.entity_type
    entity_id := r.entity_id
    rank := r.rank
    metric_value := r.metric_value
    sample_size := r.sample_size
    z_raw := r.z_raw
    z_adjusted := r.z_adjusted
    score := r.score }

/-- Model of `engine._persist_results` (lines 167-196): delete every stored
row with the same `(run_date, pattern_id)` key, then insert the new rows.
The store is modelled as a list of rows. -/
def persistResults {K : Type} [DecidableEq K] (db : List (ResultRow K)) (d : ℕ)
    (p : PatternTemplate) (scored : List (ScoredRow K)) : List (ResultRow K) :=
  db.filter (fun r => ¬(r.run_date = d ∧ r.pattern_id = p.pattern_id))
    ++ scored.map (toResultRow d p)

/-- Model of `engine.evaluate_pattern` (lines 199-213): with no fetched rows
it returns early — `_persist_results` is never called and the store is left
untouched; otherwise the scored rows replace the key's rows.  The scoring
function is a parameter, so every statement below holds for any scoring
function, in particular for `computeScores`. -/
def evaluatePattern {K : Type} [DecidableEq K] (db : List (ResultRow K)) (p : PatternTemplate)
    (d : ℕ) (fetched : List RawRow) (scoreFn : PatternTemplate → List RawRow → List (ScoredRow K)) :
    List (ResultRow K) × List (ScoredRow K) :=
  if fetched = [] then (db, [])
  else
    (persistResults db d p (scoreFn p fetched), scoreFn p fetched)

/-! ### Auxiliary definitions used by the statements, and concrete inputs -/

/-- Decidable equality for `Except` results, so that batch outcomes can be
checked on concrete inputs. -/
instance exceptDecEq {E A : Type} [DecidableEq E] [DecidableEq A] :
    DecidableEq (Except E A)
  | .error e1, .error e2 =>
    if h : e1 = e2 then isTrue (by rw [h])
    else isFalse (fun hc => h (by injection hc))
  | .error _, .ok _ => isFalse (fun hc => Except.noConfusion hc)
  | .ok _, .error _ => isFalse (fun hc => Except.noConfusion hc)
  | .ok a1, .ok a2 =>
    if h : a1 = a2 then isTrue (by rw [h])
    else isFalse (fun hc => h (by injection hc))

/-- Forget the score field; two lists with equal `eraseScore` images agree in
every field except possibly the score, in the same order. -/
def eraseScore (e : Top50Entry) : Top50Entry := { e with score := 0 }

/-- Restamp an entry's run date; two selections equal after `setDate 0` agree
in every field except the stamped date. -/
def setDate (d : ℕ) (e : Top50Entry) : Top50Entry := { e with run_date := d }

/-- A well-formed pattern template used as the base of the concrete examples:
registered metric, batter scope, no filters. -/
def basePattern : PatternTemplate :=
  { pattern_id := "p_base".toList
    entity_type := "batter".toList
    base_table := "pa_facts".toList
    metric := "hr_rate".toList
    metric_expr := none
    order_direction := some "desc".toList
    min_sample := some 1
    target_sample := some 50
    unicorn_weight := none
    public_weight := none
    complexity_score := some 1
    enabled := true
    requires_count := false
    count_value := none
    category := none
    filters_json := Jx.objNil
    description_template := [] }

/-- A valid enabled pattern: passes validation and resolves its metric. -/
def pGoodPattern : PatternTemplate :=
  { basePattern with pattern_id := "p_good".toList }

/-- A pattern whose metric name is not registered and has no override: passes
validation but raises `KeyError` inside `build_query`. -/
def pUnknownMetric : PatternTemplate :=
  { basePattern with pattern_id := "p_unknown".toList, metric := "nope".toList }

/-- A pitcher pattern declaring a `last_n_pa` window.  (Note its fate: the
banned-term scan rejects it first, because `"wind"` is a substring of the
filter key `"window"`.) -/
def pWindowPitcher : PatternTemplate :=
  { basePattern with
      pattern_id := "p_window".toList
      entity_type := "pitcher".toList
      filters_json := Jx.objCons "window".toList
        (Jx.objCons "type".toList (Jx.str "last_n_pa".toList)
          (Jx.objCons "n".toList (Jx.num 50) Jx.objNil)) Jx.objNil }

/-- A selection row with the given entity, pattern and score (empty names and
template). -/
def mkSelRow (i : ℤ) (pid : List Char) (s : ℚ) : SelRow :=
  ⟨⟨"batter".toList, i, pid, 1, 10, s⟩, none, none, []⟩

/-- A Top-50 entry with the given entity id and score (other fields zeroed),
used to exercise the spacing pass on concrete inputs. -/
def entryWithScore (i : ℤ) (s : ℚ) : Top50Entry :=
  { run_date := 0, rank := 0, entity_type := [], entity_id := i, pattern_id := [],
    metric_value := 0, sample_size := 0, score := s, description := [] }

/-- Two scored rows as the pipeline produces them for a two-candidate
degenerate pattern whose sample sizes are `0` with `target_sample > 0`:
rank-spread `z_raw` values `2` and `0`, confidence weight `0`, final scores
both `0`. -/
def scoredZeroA : ScoredRow ℚ := ⟨1, 1, 0, 2, 0, 0, 0⟩

/-- Companion zero-score row of `scoredZeroA`. -/
def scoredZeroB : ScoredRow ℚ := ⟨2, 1, 0, 0, 0, 0, 0⟩

/-- A persisted result row for `(run_date 5, p_good)` left over from an
earlier run. -/
def staleResultRow : ResultRow ℚ :=
  { run_date := 5, pattern_id := "p_good".toList, entity_type := "batter".toList,
    entity_id := 9, rank := 1, metric_value := 1, sample_size := 10,
    z_raw := 1, z_adjusted := 1, score := 1 }

/-- A raw candidate row whose metric parsed to `+inf`: not NaN, so the
cleaning loop keeps it. -/
def rowInfMetric : RawRow := ⟨1, .posInfV, .val 7⟩

/-- A raw candidate row whose sample size fails `int()`: the exception is
caught and the sample coerced to `0`; the row is kept. -/
def rowBadSample : RawRow := ⟨2, .finV 1, .notInt⟩

/-- A well-formed fetched row. -/
def rowPlain : RawRow := ⟨9, .finV 1, .val 10⟩

/-! ### Helper lemmas: the final-list spacing pass -/

lemma spacingGo_length (g prev : ℚ) (rows : List Top50Entry) :
    (spacingGo g prev rows).length = rows.length := by
  induction rows generalizing prev with
  | nil => rfl
  | cons r rest ih => simp only [spacingGo, List.length_cons, ih]

lemma spacingGo_frame (g prev : ℚ) (rows : List Top50Entry) :
    (spacingGo g prev rows).map eraseScore = rows.map eraseScore := by
  induction rows generalizing prev with
  | nil => rfl
  | cons r rest ih => simp only [spacingGo, List.map_cons, ih, eraseScore]

lemma spacingGo_nonneg (g prev : ℚ) (rows : List Top50Entry) :
    ∀ e ∈ spacingGo g prev rows, 0 ≤ e.score := by
  induction rows generalizing prev with
  | nil => intro e he; cases he
  | cons r rest ih =>
    intro e he
    simp only [spacingGo, List.mem_cons] at he
    rcases he with rfl | he
    · exact le_max_left 0 _
    · exact ih _ e he

lemma spacingGo_clampneg (g prev : ℚ) (rows : List Top50Entry) :
    ∀ pr ∈ (spacingGo g prev rows).zip rows, pr.2.score < 0 → pr.1.score = 0 := by
  induction rows generalizing prev with
  | nil => intro pr hpr; cases hpr
  | cons r rest ih =>
    intro pr hpr hneg
    simp only [spacingGo, List.zip_cons_cons, List.mem_cons] at hpr
    rcases hpr with rfl | hpr
    · simp only at hneg ⊢
      have h0 : max 0 r.score = 0 := max_eq_left (le_of_lt hneg)
      rw [h0]
      split
      · next hlt => exact max_eq_left (le_of_lt hlt)
      · exact max_eq_left le_rfl
    · exact ih _ pr hpr hneg

lemma spacingGo_gapChain (g : ℚ) (hg1 : g ≤ 1) (rows : List Top50Entry) :
    ∀ prev : ℚ, 0 ≤ prev →
      (∀ b ∈ (spacingGo g prev rows).head?, b.score ≤ prev * (1 - g)) ∧
        List.Chain' (fun a b => b.score ≤ a.score * (1 - g)) (spacingGo g prev rows) := by
  induction rows with
  | nil => intro prev _; exact ⟨fun b hb => (by cases hb), List.chain'_nil⟩
  | cons r rest ih =>
    intro prev hprev
    have hfac : 0 ≤ prev * (1 - g) := mul_nonneg hprev (by linarith)
    simp only [spacingGo, List.head?_cons, Option.mem_def, Option.some.injEq]
    constructor
    · intro b hb
      subst hb
      simp only
      split
      · next hlt => rw [max_eq_right hfac]
      · next hle =>
        rw [max_eq_right (le_max_left 0 r.score)]
        exact le_of_not_lt hle
    · set cur2 := max 0 (if max 0 r.score > prev * (1 - g) then prev * (1 - g) else max 0 r.score) with hc
      have hcur2 : 0 ≤ cur2 := le_max_left 0 _
      rcases ih cur2 hcur2 with ⟨ihhead, ihchain⟩
      rw [List.chain'_cons']
      refine ⟨?_, ihchain⟩
      intro b hb
      have := ihhead b hb
      simpa using this

lemma applyMinScoreSpacing_length (g : ℚ) (rows : List Top50Entry) :
    (applyMinScoreSpacing g rows).length = rows.length := by
  cases rows with
  | nil => rfl
  | cons r rest => simp only [applyMinScoreSpacing, List.length_cons, spacingGo_length]

lemma applyMinScoreSpacing_frame (g : ℚ) (rows : List Top50Entry) :
    (applyMinScoreSpacing g rows).map eraseScore = rows.map eraseScore := by
  cases rows with
  | nil => rfl
  | cons r rest =>
    simp only [applyMinScoreSpacing, List.map_cons, spacingGo_frame, eraseScore]

lemma applyMinScoreSpacing_nonneg (g : ℚ) (rows : List Top50Entry) :
    ∀ e ∈ applyMinScoreSpacing g rows, 0 ≤ e.score := by
  cases rows with
  | nil => intro e he; cases he
  | cons r rest =>
    intro e he
    simp only [applyMinScoreSpacing, List.mem_cons] at he
    rcases he with rfl | he
    · exact le_max_left 0 _
    · exact spacingGo_nonneg g _ rest e he

lemma applyMinScoreSpacing_clampneg (g : ℚ) (rows : List Top50Entry) :
    ∀ pr ∈ (applyMinScoreSpacing g rows).zip rows, pr.2.score < 0 → pr.1.score = 0 := by
  cases rows with
  | nil => intro pr hpr; cases hpr
  | cons r rest =>
    intro pr hpr hneg
    simp only [applyMinScoreSpacing, List.zip_cons_cons, List.mem_cons] at hpr
    rcases hpr with rfl | hpr
    · simpa using max_eq_left (le_of_lt hneg)
    · exact spacingGo_clampneg g _ rest pr hpr hneg

lemma applyMinScoreSpacing_gapChain (g : ℚ) (hg1 : g ≤ 1) (rows : List Top50Entry) :
    List.Chain' (fun a b => b.score ≤ a.score * (1 - g)) (applyMinScoreSpacing g rows) := by
  cases rows with
  | nil => exact List.chain'_nil
  | cons r rest =>
    rcases spacingGo_gapChain g hg1 rest (max 0 r.score) (le_max_left 0 r.score) with ⟨hhead, hchain⟩
    rw [applyMinScoreSpacing, List.chain'_cons']
    exact ⟨fun b hb => by simpa using hhead b hb, hchain⟩

/-! ### Helper lemmas: the within-pattern plateau-breaking pass -/

lemma plateauGo_length {K : Type} [LinearOrderedField K] (rows : List (ScoredRow K)) :
    ∀ prev : K, (plateauGo prev rows).length = rows.length := by
  induction rows with
  | nil => intro prev; rfl
  | cons r rest ih =>
    intro prev
    rw [plateauGo]
    split
    · simp only [List.length_cons, ih]
    · simp only [List.length_cons, ih]

lemma plateauPass_length {K : Type} [LinearOrderedField K] (rows : List (ScoredRow K)) :
    (plateauPass rows).length = rows.length := by
  cases rows with
  | nil => rfl
  | cons r rest => simp only [plateauPass, List.length_cons, plateauGo_length]

lemma plateauGo_gap {K : Type} [LinearOrderedField K] (rows : List (ScoredRow K)) :
    ∀ prev ip : K, (0 < prev ∨ prev = ip) → prev ≤ ip →
      (∀ b ∈ rows.head?, b.score ≤ ip) →
      List.Chain' (fun a b => b.score ≤ a.score) rows →
      (∀ b ∈ (plateauGo prev rows).head?, b.score ≤ prev * (99 / 100)) ∧
        List.Chain' (fun a b => b.score ≤ a.score * (99 / 100)) (plateauGo prev rows) := by
  induction rows with
  | nil => intro prev ip _ _ _ _; exact ⟨fun b hb => (by cases hb), List.chain'_nil⟩
  | cons r rest ih =>
    intro prev ip hdisj hple hhead hchain
    have hcur : r.score ≤ ip := hhead r (by simp)
    rcases List.chain'_cons'.mp hchain with ⟨hrel, hchainrest⟩
    rw [plateauGo]
    split
    · next hcl =>
      have hprevpos : 0 < prev := hcl.1
      have hlt : prev * (99 / 100) < r.score := by
        have := hcl.2
        linarith
      have hihyp := ih (prev * (99 / 100)) r.score
        (Or.inl (by positivity)) (le_of_lt hlt) hrel hchainrest
      constructor
      · intro b hb
        simp only [List.head?_cons, Option.mem_def, Option.some.injEq] at hb
        subst hb
        exact le_rfl
      · rw [List.chain'_cons']
        exact ⟨fun b hb => by simpa using hihyp.1 b hb, hihyp.2⟩
    · next hncl =>
      have hbound : r.score ≤ prev * (99 / 100) := by
        by_cases hp : 0 < prev
        · have hge : ¬ (prev - r.score < 1 / 100 * prev) := fun hc => hncl ⟨hp, hc⟩
          push_neg at hge
          linarith
        · have hpe : prev = ip := hdisj.resolve_left hp
          have hrs : r.score ≤ prev := hpe ▸ hcur
          have hp0 : prev ≤ 0 := le_of_not_lt hp
          nlinarith
      have hihyp := ih r.score r.score (Or.inr rfl) le_rfl hrel hchainrest
      constructor
      · intro b hb
        simp only [List.head?_cons, Option.mem_def, Option.some.injEq] at hb
        subst hb
        exact hbound
      · rw [List.chain'_cons']
        exact ⟨fun b hb => hihyp.1 b hb, hihyp.2⟩

lemma plateauPass_gapChain {K : Type} [LinearOrderedField K] (rows : List (ScoredRow K))
    (hsorted : List.Chain' (fun a b => b.score ≤ a.score) rows) :
    List.Chain' (fun a b => b.score ≤ a.score * (99 / 100)) (plateauPass rows) := by
  cases rows with
  | nil => exact List.chain'_nil
  | cons r rest =>
    rcases List.chain'_cons'.mp hsorted with ⟨hrel, hchainrest⟩
    have hihyp := plateauGo_gap rest r.score r.score (Or.inr rfl) le_rfl hrel hchainrest
    rw [plateauPass, List.chain'_cons']
    exact ⟨fun b hb => hihyp.1 b hb, hihyp.2⟩

/-! ### Helper lemmas: the assembled scoring pipeline -/

lemma sortKeyLE_score {K : Type} [LinearOrderedField K] (desc : Bool) (a b : ScoredRow K)
    (h : sortKeyLE desc a b) : b.score ≤ a.score := by
  unfold sortKeyLE sortKey at h
  rcases (Prod.Lex.le_iff _ _).mp h with hlt | ⟨heq, _⟩
  · simp only at hlt
    linarith
  · simp only at heq
    linarith [neg_injective heq]

lemma assignRanksFrom_map_score {K : Type} (l : List (ScoredRow K)) :
    ∀ n, (assignRanksFrom n l).map ScoredRow.score = l.map ScoredRow.score := by
  induction l with
  | nil => intro n; rfl
  | cons r rest ih => intro n; simp only [assignRanksFrom, List.map_cons, ih]

lemma assignRanksFrom_length {K : Type} (l : List (ScoredRow K)) :
    ∀ n, (assignRanksFrom n l).length = l.length := by
  induction l with
  | nil => intro n; rfl
  | cons r rest ih => intro n; simp only [assignRanksFrom, List.length_cons, ih]

lemma assignRanks_score_chain {K : Type} (S : K → K → Prop) (l : List (ScoredRow K))
    (h : List.Chain' (fun a b => S a.score b.score) l) :
    List.Chain' (fun a b => S a.score b.score) (assignRanks l) := by
  have h1 : List.Chain' S (l.map ScoredRow.score) := (List.chain'_map ScoredRow.score).mpr h
  have h2 : List.Chain' S ((assignRanks l).map ScoredRow.score) := by
    rw [assignRanks, assignRanksFrom_map_score]
    exact h1
  exact (List.chain'_map ScoredRow.score).mp h2

/-- The whole per-pattern pipeline output satisfies the 1% relative spacing:
adjacent final scores obey `score[i] ≤ 0.99 * score[i-1]`. -/
lemma computeScores_gapChain (p : PatternTemplate) (rows : List RawRow)
    (marketWeight : ℤ → ℝ) :
    List.Chain' (fun a b => b.score ≤ a.score * (99 / 100)) (computeScores p rows marketWeight) := by
  rw [computeScores]
  split
  · exact List.chain'_nil
  · set base := scoreBase p marketWeight (cleanRows rows)
      (zValues ((cleanRows rows).map (fun c => c.metric_value.toRat)) (descendingOf p)) with hb
    have hsorted : List.Sorted (sortKeyLE (descendingOf p))
        (List.insertionSort (sortKeyLE (descendingOf p)) base) :=
      List.sorted_insertionSort (sortKeyLE (descendingOf p)) base
    have hchain : List.Chain' (fun a b : ScoredRow ℝ => b.score ≤ a.score)
        (List.insertionSort (sortKeyLE (descendingOf p)) base) :=
      List.Pairwise.chain' (List.Pairwise.imp (sortKeyLE_score (descendingOf p) _ _) hsorted)
    exact assignRanks_score_chain (fun x y => y ≤ x * (99 / 100)) _
      (plateauPass_gapChain _ hchain)

lemma zValues_length (values : List ℚ) (desc : Bool) :
    (zValues values desc).length = values.length := by
  unfold zValues
  split
  · unfold rankSpreadZ
    split
    · next h => simp [h]
    · simp
  · simp

lemma computeScores_length (p : PatternTemplate) (rows : List RawRow)
    (marketWeight : ℤ → ℝ) :
    (computeScores p rows marketWeight).length =
      if cleanRows rows = [] then 0 else (cleanRows rows).length := by
  rw [computeScores]
  split
  · rfl
  · rw [assignRanks, assignRanksFrom_length, plateauPass_length, List.length_insertionSort,
      scoreBase, List.length_zipWith, zValues_length, List.length_map, min_self]

/-! ### Helper lemmas: row cleaning -/

lemma cleanRows_eq_filterMap (rows : List RawRow) :
    cleanRows rows = (rows.filter (fun r => (keepMetric r.metric_value).isSome)).map coerceRow := by
  induction rows with
  | nil => rfl
  | cons r rest ih =>
    rw [cleanRows]
    cases hk : keepMetric r.metric_value with
    | none => simp [List.filter_cons, hk, ih]
    | some v => simp [List.filter_cons, hk, ih, coerceRow]

lemma computeScores_eq_nil_iff (p : PatternTemplate) (rows : List RawRow)
    (marketWeight : ℤ → ℝ) :
    computeScores p rows marketWeight = [] ↔ cleanRows rows = [] := by
  constructor
  · intro h
    by_contra hne
    have hl := computeScores_length p rows marketWeight
    rw [if_neg hne, h] at hl
    exact hne (List.eq_nil_of_length_eq_zero hl.symm)
  · intro h
    rw [computeScores, if_pos h]

/-! ### Helper lemmas: the Top-50 selection loop -/

lemma range'_append_one (n : ℕ) : List.range' 1 n ++ [n + 1] = List.range' 1 (n + 1) := by
  rw [List.range'_concat]
  simp [Nat.add_comm]

lemma accept_nodup (d : ℕ) (row : SelRow) (seen : List ℤ) (top : List Top50Entry)
    (hseen : ∀ e ∈ top, e.entity_id ∈ seen)
    (hnodup : (top.map Top50Entry.entity_id).Nodup)
    (hnotseen : row.result.entity_id ∉ seen) (k : ℕ) :
    ((top ++ [mkEntry d row k]).map Top50Entry.entity_id).Nodup := by
  have hnm : row.result.entity_id ∉ top.map Top50Entry.entity_id := by
    intro hmem
    rcases List.mem_map.mp hmem with ⟨e, he, heq⟩
    exact hnotseen (heq ▸ hseen e he)
  simp only [List.map_append, List.map_cons, List.map_nil]
  rw [List.nodup_append]
  refine ⟨hnodup, List.nodup_singleton _, ?_⟩
  intro x hx hx1
  simp only [mkEntry, List.mem_singleton] at hx1
  exact hnm (hx1 ▸ hx)

lemma accept_ranks (d : ℕ) (row : SelRow) (top : List Top50Entry)
    (hranks : top.map Top50Entry.rank = List.range' 1 top.length) :
    (top ++ [mkEntry d row (top.length + 1)]).map Top50Entry.rank =
      List.range' 1 (top ++ [mkEntry d row (top.length + 1)]).length := by
  simp only [List.map_append, List.map_cons, List.map_nil, List.length_append,
    List.length_cons, List.length_nil, hranks, mkEntry]
  exact range'_append_one top.length

lemma accept_filter_length (d : ℕ) (row : SelRow) (top : List Top50Entry) (k : ℕ) (q : List Char) :
    ((top ++ [mkEntry d row k]).filter (fun e => e.pattern_id = q)).length =
      (top.filter (fun e => e.pattern_id = q)).length
        + (if q = row.result.pattern_id then 1 else 0) := by
  rw [List.filter_append, List.length_append]
  congr 1
  by_cases hq : q = row.result.pattern_id
  · simp [List.filter_cons, mkEntry, hq]
  · simp [List.filter_cons, mkEntry, Ne.symm hq, hq]

lemma selectGo_props (d : ℕ) (r50 r10 : ℤ → ℕ) (rows : List SelRow) :
    ∀ (seen : List ℤ) (counts : List Char → ℕ) (top : List Top50Entry),
      (∀ e ∈ top, e.entity_id ∈ seen) →
      (top.map Top50Entry.entity_id).Nodup →
      top.map Top50Entry.rank = List.range' 1 top.length →
      top.length < 50 →
      (∀ q, counts q = (top.filter (fun e => e.pattern_id = q)).length) →
      (∀ q, counts q ≤ MAX_PER_PATTERN_PER_DAY) →
      ((selectGo d r50 r10 rows seen counts top).map Top50Entry.entity_id).Nodup ∧
        (selectGo d r50 r10 rows seen counts top).map Top50Entry.rank =
          List.range' 1 (selectGo d r50 r10 rows seen counts top).length ∧
        (selectGo d r50 r10 rows seen counts top).length ≤ 50 ∧
        ∀ q, ((selectGo d r50 r10 rows seen counts top).filter
          (fun e => e.pattern_id = q)).length ≤ MAX_PER_PATTERN_PER_DAY := by
  induction rows with
  | nil =>
    intro seen counts top hseen hnodup hranks hlen hcounts hcap
    rw [selectGo]
    refine ⟨hnodup, hranks, le_of_lt hlen, fun q => ?_⟩
    rw [← hcounts q]
    exact hcap q
  | cons row rest ih =>
    intro seen counts top hseen hnodup hranks hlen hcounts hcap
    rw [selectGo]
    by_cases h1 : row.result.entity_id ∈ seen
    · rw [if_pos h1]
      exact ih seen counts top hseen hnodup hranks hlen hcounts hcap
    · rw [if_neg h1]
      by_cases h2 : MAX_PER_PATTERN_PER_DAY ≤ counts row.result.pattern_id
      · rw [if_pos h2]
        exact ih seen counts top hseen hnodup hranks hlen hcounts hcap
      · rw [if_neg h2]
        by_cases h3 : TOP50_MAX_APPEARANCES_LOOKBACK ≤ r50 row.result.entity_id
        · rw [if_pos h3]
          exact ih seen counts top hseen hnodup hranks hlen hcounts hcap
        · rw [if_neg h3]
          by_cases h4 : top.length + 1 ≤ 10 ∧
              TOP10_MAX_APPEARANCES_LOOKBACK ≤ r10 row.result.entity_id
          · rw [if_pos h4]
            exact ih seen counts top hseen hnodup hranks hlen hcounts hcap
          · rw [if_neg h4]
            have hcntlt : counts row.result.pattern_id < MAX_PER_PATTERN_PER_DAY :=
              lt_of_not_le h2
            have hcaps : ∀ q, ((top ++ [mkEntry d row (top.length + 1)]).filter
                (fun e => e.pattern_id = q)).length ≤ MAX_PER_PATTERN_PER_DAY := by
              intro q
              rw [accept_filter_length, ← hcounts q]
              by_cases hq : q = row.result.pattern_id
              · rw [if_pos hq, hq]
                omega
              · rw [if_neg hq]
                have := hcap q
                omega
            by_cases h5 : 50 ≤ top.length + 1
            · rw [if_pos h5]
              refine ⟨accept_nodup d row seen top hseen hnodup h1 _,
                accept_ranks d row top hranks, ?_, hcaps⟩
              simp only [List.length_append, List.length_cons, List.length_nil]
              omega
            · rw [if_neg h5]
              refine ih (row.result.entity_id :: seen)
                (fun q => if q = row.result.pattern_id then counts q + 1 else counts q)
                (top ++ [mkEntry d row (top.length + 1)]) ?_ ?_ ?_ ?_ ?_ ?_
              · intro e he
                rcases List.mem_append.mp he with he | he
                · exact List.mem_cons_of_mem _ (hseen e he)
                · simp only [List.mem_singleton] at he
                  subst he
                  simp [mkEntry]
              · exact accept_nodup d row seen top hseen hnodup h1 _
              · exact accept_ranks d row top hranks
              · simp only [List.length_append, List.length_cons, List.length_nil]
                omega
              · intro q
                rw [accept_filter_length, ← hcounts q]
                by_cases hq : q = row.result.pattern_id
                · simp [hq]
                · simp [hq]
              · intro q
                by_cases hq : q = row.result.pattern_id
                · simp only [hq, if_pos]
                  omega
                · simp only [if_neg hq]
                  exact hcap q

lemma selectTop50_props (d : ℕ) (rows : List SelRow) (r50 r10 : ℤ → ℕ) :
    ((selectTop50 d rows r50 r10).map Top50Entry.entity_id).Nodup ∧
      (selectTop50 d rows r50 r10).map Top50Entry.rank =
        List.range' 1 (selectTop50 d rows r50 r10).length ∧
      (selectTop50 d rows r50 r10).length ≤ 50 ∧
      ∀ q, ((selectTop50 d rows r50 r10).filter
        (fun e => e.pattern_id = q)).length ≤ MAX_PER_PATTERN_PER_DAY := by
  refine selectGo_props d r50 r10 rows [] (fun _ => 0) [] ?_ ?_ ?_ ?_ ?_ ?_
  · intro e he; cases he
  · exact List.nodup_nil
  · rfl
  · simp
  · intro q; rfl
  · intro q; exact Nat.zero_le _

/-! ### Helper lemmas: run-date invariance of the selection -/

lemma setDate_mkEntry (d d0 : ℕ) (row : SelRow) (k : ℕ) :
    setDate d0 (mkEntry d row k) = mkEntry d0 row k := rfl

lemma selectGo_setDate (d d0 : ℕ) (r50 r10 : ℤ → ℕ) (rows : List SelRow) :
    ∀ (seen : List ℤ) (counts : List Char → ℕ) (top : List Top50Entry),
      (selectGo d r50 r10 rows seen counts top).map (setDate d0) =
        selectGo d0 r50 r10 rows seen counts (top.map (setDate d0)) := by
  induction rows with
  | nil => intro seen counts top; rw [selectGo, selectGo]
  | cons row rest ih =>
    intro seen counts top
    rw [selectGo, selectGo]
    simp only [List.length_map]
    by_cases h1 : row.result.entity_id ∈ seen
    · rw [if_pos h1, if_pos h1, ih]
    · rw [if_neg h1, if_neg h1]
      by_cases h2 : MAX_PER_PATTERN_PER_DAY ≤ counts row.result.pattern_id
      · rw [if_pos h2, if_pos h2, ih]
      · rw [if_neg h2, if_neg h2]
        by_cases h3 : TOP50_MAX_APPEARANCES_LOOKBACK ≤ r50 row.result.entity_id
        · rw [if_pos h3, if_pos h3, ih]
        · rw [if_neg h3, if_neg h3]
          by_cases h4 : top.length + 1 ≤ 10 ∧
              TOP10_MAX_APPEARANCES_LOOKBACK ≤ r10 row.result.entity_id
          · rw [if_pos h4, if_pos h4, ih]
          · rw [if_neg h4, if_neg h4]
            by_cases h5 : 50 ≤ top.length + 1
            · rw [if_pos h5, if_pos h5]
              simp [setDate_mkEntry]
            · rw [if_neg h5, if_neg h5, ih]
              simp [setDate_mkEntry]

lemma selectTop50_setDate (d d0 : ℕ) (rows : List SelRow) (r50 r10 : ℤ → ℕ) :
    (selectTop50 d rows r50 r10).map (setDate d0) = selectTop50 d0 rows r50 r10 := by
  rw [selectTop50, selectTop50, selectGo_setDate]
  rfl

lemma spacingGo_setDate (g prev : ℚ) (d0 : ℕ) (rows : List Top50Entry) :
    (spacingGo g prev rows).map (setDate d0) = spacingGo g prev (rows.map (setDate d0)) := by
  induction rows generalizing prev with
  | nil => rfl
  | cons r rest ih => simp only [spacingGo, List.map_cons, ih, setDate]

lemma applyMinScoreSpacing_setDate (g : ℚ) (d0 : ℕ) (rows : List Top50Entry) :
    (applyMinScoreSpacing g rows).map (setDate d0) =
      applyMinScoreSpacing g (rows.map (setDate d0)) := by
  cases rows with
  | nil => rfl
  | cons r rest =>
    simp only [applyMinScoreSpacing, List.map_cons, spacingGo_setDate, setDate]

lemma generateTop50_setDate (d d0 : ℕ) (rows : List SelRow) (r50 r10 : ℤ → ℕ) :
    (generateTop50 d rows r50 r10).map (setDate d0) = generateTop50 d0 rows r50 r10 := by
  rw [generateTop50, generateTop50, applyMinScoreSpacing_setDate, selectTop50_setDate]

/-! ### Helper lemmas: persistence and the batch loop -/

lemma evaluatePattern_key_rows {K : Type} [DecidableEq K] (db : List (ResultRow K))
    (p : PatternTemplate) (d : ℕ) (fetched : List RawRow)
    (scoreFn : PatternTemplate → List RawRow → List (ScoredRow K)) (h : fetched ≠ []) :
    ((evaluatePattern db p d fetched scoreFn).1.filter
        (fun r => r.run_date = d ∧ r.pattern_id = p.pattern_id)) =
      (scoreFn p fetched).map (toResultRow d p) := by
  rw [evaluatePattern, if_neg h]
  simp only [persistResults, List.filter_append]
  have h1 : ((db.filter (fun r => ¬(r.run_date = d ∧ r.pattern_id = p.pattern_id))).filter
      (fun r => r.run_date = d ∧ r.pattern_id = p.pattern_id)) = [] := by
    rw [List.filter_filter]
    apply List.filter_eq_nil_iff.mpr
    intro a _
    simp
  have h2 : (((scoreFn p fetched).map (toResultRow d p)).filter
      (fun r => r.run_date = d ∧ r.pattern_id = p.pattern_id)) =
        (scoreFn p fetched).map (toResultRow d p) := by
    apply List.filter_eq_self.mpr
    intro a ha
    rcases List.mem_map.mp ha with ⟨s, _, rfl⟩
    simp [toResultRow]
  rw [h1, h2, List.nil_append]

lemma runBatchGo_skip (p : PatternTemplate) (ps : List PatternTemplate)
    (h : validatePattern p ≠ []) : runBatchGo (p :: ps) = runBatchGo ps := by
  rw [runBatchGo, if_pos h]

lemma runBatchGo_abort (p : PatternTemplate) (ps : List PatternTemplate) (e : List Char)
    (hv : validatePattern p = []) (hb : buildQueryChecks p = .error e) :
    runBatchGo (p :: ps) = .error e := by
  rw [runBatchGo, if_neg (by simp [hv]), hb]

lemma runBatchGo_clean (ps : List PatternTemplate)
    (h : ∀ p ∈ ps, validatePattern p = [] → buildQueryChecks p = .ok ()) :
    runBatchGo ps = .ok ((ps.filter (fun p => validatePattern p = [])).map
      (fun p => p.pattern_id)) := by
  induction ps with
  | nil => rfl
  | cons p rest ih =>
    have hrest := ih (fun q hq => h q (List.mem_cons_of_mem p hq))
    by_cases hv : validatePattern p = []
    · rw [runBatchGo, if_neg (by simp [hv]), h p (List.mem_cons_self p rest) hv, hrest]
      simp [List.filter_cons, hv]
    · rw [runBatchGo, if_pos hv, hrest]
      simp [List.filter_cons, hv]

/-! ### Helper lemmas: the rank-spread transform -/

lemma countP_le_of_imp {α : Type} (p q : α → Bool) (l : List α)
    (hpq : ∀ x ∈ l, p x = true → q x = true) : l.countP p ≤ l.countP q := by
  induction l with
  | nil => exact le_refl 0
  | cons b t ih =>
    rw [List.countP_cons, List.countP_cons]
    have hb : (if p b then 1 else 0) ≤ (if q b then 1 else 0) := by
      by_cases hpb : p b = true
      · rw [if_pos hpb, if_pos (hpq b (List.mem_cons_self b t) hpb)]
      · simp [hpb]
    have ht := ih (fun x hx => hpq x (List.mem_cons_of_mem b hx))
    omega

lemma countP_lt_of_witness {α : Type} (p q : α → Bool) (l : List α)
    (hpq : ∀ x ∈ l, p x = true → q x = true) (a : α) (ha : a ∈ l)
    (hpa : p a = false) (hqa : q a = true) : l.countP p < l.countP q := by
  induction l with
  | nil => cases ha
  | cons b t ih =>
    rw [List.countP_cons, List.countP_cons]
    rcases List.mem_cons.mp ha with rfl | hat
    · have := countP_le_of_imp p q t (fun x hx => hpq x (List.mem_cons_of_mem _ hx))
      simp only [hpa, hqa, Bool.false_eq_true, if_false, if_true]
      omega
    · have hb : (if p b then 1 else 0) ≤ (if q b then 1 else 0) := by
        by_cases hpb : p b = true
        · rw [if_pos hpb, if_pos (hpq b (List.mem_cons_self b t) hpb)]
        · simp [hpb]
      have ht := ih (fun x hx => hpq x (List.mem_cons_of_mem b hx)) hat
      omega

lemma beatsIdx_irrefl (values : List ℚ) (desc : Bool) (i : ℕ) :
    beatsIdx values desc i i = false := by
  cases desc <;> simp [beatsIdx]

lemma beatsIdx_total (values : List ℚ) (desc : Bool) (i j : ℕ) (hne : i ≠ j) :
    beatsIdx values desc j i = true ∨ beatsIdx values desc i j = true := by
  simp only [beatsIdx, Bool.or_eq_true, Bool.and_eq_true, decide_eq_true_eq]
  rcases lt_trichotomy (values.getD i 0) (values.getD j 0) with hv | hv | hv
  · cases desc
    · simp only [Bool.false_eq_true, if_false, decide_eq_true_eq]
      tauto
    · simp only [if_true, decide_eq_true_eq]
      tauto
  · have hsymm := hv.symm
    rcases Nat.lt_or_ge i j with hij | hij
    · cases desc
      · simp only [Bool.false_eq_true, if_false, decide_eq_true_eq]
        tauto
      · simp only [if_true, decide_eq_true_eq]
        tauto
    · have hji : j < i := lt_of_le_of_ne hij (Ne.symm hne)
      cases desc
      · simp only [Bool.false_eq_true, if_false, decide_eq_true_eq]
        tauto
      · simp only [if_true, decide_eq_true_eq]
        tauto
  · cases desc
    · simp only [Bool.false_eq_true, if_false, decide_eq_true_eq]
      tauto
    · simp only [if_true, decide_eq_true_eq]
      tauto

lemma beatsIdx_trans (values : List ℚ) (desc : Bool) (k j i : ℕ)
    (h1 : beatsIdx values desc k j = true) (h2 : beatsIdx values desc j i = true) :
    beatsIdx values desc k i = true := by
  cases desc <;>
    simp only [beatsIdx, Bool.or_eq_true, Bool.and_eq_true, decide_eq_true_eq,
      if_true, if_false, Bool.false_eq_true] at h1 h2 ⊢ <;>
    rcases h1 with h1 | ⟨h1e, h1i⟩ <;> rcases h2 with h2 | ⟨h2e, h2i⟩
  · exact Or.inl (lt_trans h1 h2)
  · exact Or.inl (h2e ▸ h1)
  · exact Or.inl (h1e ▸ h2)
  · exact Or.inr ⟨h1e.trans h2e, lt_trans h1i h2i⟩
  · exact Or.inl (lt_trans h2 h1)
  · exact Or.inl (h2e ▸ h1)
  · exact Or.inl (h1e ▸ h2)
  · exact Or.inr ⟨h1e.trans h2e, lt_trans h1i h2i⟩

lemma rankPos_lt (values : List ℚ) (desc : Bool) (i : ℕ) (hi : i < values.length) :
    rankPos values desc i < values.length := by
  have h := countP_lt_of_witness (fun j => beatsIdx values desc j i) (fun _ => true)
    (List.range values.length) (fun x _ _ => rfl) i (List.mem_range.mpr hi)
    (beatsIdx_irrefl values desc i) rfl
  rw [rankPos]
  calc (List.range values.length).countP (fun j => beatsIdx values desc j i)
      < (List.range values.length).countP (fun _ => true) := h
    _ = values.length := by rw [List.countP_true, List.length_range]

lemma rankPos_inj (values : List ℚ) (desc : Bool) (i j : ℕ) (hi : i < values.length)
    (hj : j < values.length) (hne : i ≠ j) :
    rankPos values desc i ≠ rankPos values desc j := by
  have key : ∀ a b : ℕ, a < values.length → b < values.length →
      beatsIdx values desc a b = true →
      rankPos values desc a < rankPos values desc b := by
    intro a b ha hb hab
    exact countP_lt_of_witness _ _ (List.range values.length)
      (fun x _ hx => beatsIdx_trans values desc x a b hx hab)
      a (List.mem_range.mpr ha) (beatsIdx_irrefl values desc a) hab
  rcases beatsIdx_total values desc i j hne with h | h
  · exact (key j i hj hi h).ne'
  · exact (key i j hi hj h).ne

lemma rankPos_surj (values : List ℚ) (desc : Bool) (k : ℕ) (hk : k < values.length) :
    ∃ i, i < values.length ∧ rankPos values desc i = k := by
  have hinj : Function.Injective
      (fun i : Fin values.length => (⟨rankPos values desc i, rankPos_lt values desc i i.2⟩ :
        Fin values.length)) := by
    intro a b hab
    by_contra hne
    have : (a : ℕ) ≠ (b : ℕ) := fun h => hne (Fin.ext h)
    exact rankPos_inj values desc a b a.2 b.2 this (congrArg Fin.val hab)
  have hsurj := Finite.injective_iff_surjective.mp hinj
  rcases hsurj ⟨k, hk⟩ with ⟨i, hi⟩
  exact ⟨i, i.2, congrArg Fin.val hi⟩

lemma rankSpreadZ_singleton (v : ℚ) (desc : Bool) : rankSpreadZ [v] desc = [2] := by
  simp [rankSpreadZ]

lemma rankSpreadZ_facts (values : List ℚ) (desc : Bool) (h2 : 2 ≤ values.length) :
    (∀ z ∈ rankSpreadZ values desc, 0 ≤ z ∧ z ≤ 2) ∧
      (2 : ℚ) ∈ rankSpreadZ values desc ∧ (0 : ℚ) ∈ rankSpreadZ values desc := by
  have hne1 : values.length ≠ 1 := by omega
  have hden : (max 1 (values.length - 1) : ℕ) = values.length - 1 :=
    Nat.max_eq_right (by omega)
  have hdenpos : (0 : ℚ) < ((values.length - 1 : ℕ) : ℚ) := by
    have : 1 ≤ values.length - 1 := by omega
    exact_mod_cast Nat.lt_of_lt_of_le Nat.zero_lt_one this
  rw [rankSpreadZ, if_neg hne1]
  refine ⟨?_, ?_, ?_⟩
  · intro z hz
    rcases List.mem_map.mp hz with ⟨i, hi, rfl⟩
    have hir := rankPos_lt values desc i (List.mem_range.mp hi)
    have hr0 : (0 : ℚ) ≤ (rankPos values desc i : ℚ) := Nat.cast_nonneg _
    have hrle : (rankPos values desc i : ℚ) ≤ ((values.length - 1 : ℕ) : ℚ) := by
      exact_mod_cast Nat.le_sub_one_of_lt hir
    rw [hden]
    constructor
    · have hq : (rankPos values desc i : ℚ) / ((values.length - 1 : ℕ) : ℚ) ≤ 1 :=
        (div_le_one hdenpos).mpr hrle
      nlinarith
    · have hq : 0 ≤ (rankPos values desc i : ℚ) / ((values.length - 1 : ℕ) : ℚ) :=
        div_nonneg hr0 (le_of_lt hdenpos)
      nlinarith
  · rcases rankPos_surj values desc 0 (by omega) with ⟨i, hi, hr⟩
    refine List.mem_map.mpr ⟨i, List.mem_range.mpr hi, ?_⟩
    rw [hr, hden]
    norm_num
  · rcases rankPos_surj values desc (values.length - 1) (by omega) with ⟨i, hi, hr⟩
    refine List.mem_map.mpr ⟨i, List.mem_range.mpr hi, ?_⟩
    rw [hr, hden, div_self (ne_of_gt hdenpos)]
    ring

/-! ### Helper lemmas: the normalization branch and the confidence weight -/

lemma sampleVar_nonneg (l : List ℚ) : 0 ≤ sampleVar l := by
  rw [sampleVar]
  split
  · exact le_refl 0
  · next h =>
    apply div_nonneg
    · apply List.sum_nonneg
      intro x hx
      rcases List.mem_map.mp hx with ⟨v, _, rfl⟩
      positivity
    · have : (2 : ℕ) ≤ l.length := le_of_not_lt h
      have : (2 : ℚ) ≤ (l.length : ℚ) := by exact_mod_cast this
      linarith

lemma usesRankSpread_iff_sqrt (values : List ℚ) :
    usesRankSpread values = true ↔
      (Real.sqrt ((sampleVar values : ℚ) : ℝ) ≤ 1 / 10 ^ 9 ∨ values.length < 5) := by
  rw [usesRankSpread, Bool.or_eq_true, decide_eq_true_eq, decide_eq_true_eq]
  constructor
  · rintro (hv | hn)
    · left
      rw [Real.sqrt_le_iff]
      refine ⟨by norm_num, ?_⟩
      have hvr : ((sampleVar values : ℚ) : ℝ) ≤ ((1 / 10 ^ 18 : ℚ) : ℝ) := by
        exact_mod_cast hv
      calc ((sampleVar values : ℚ) : ℝ) ≤ ((1 / 10 ^ 18 : ℚ) : ℝ) := hvr
        _ = (1 / 10 ^ 9 : ℝ) ^ 2 := by norm_num
    · exact Or.inr hn
  · rintro (hs | hn)
    · left
      rcases Real.sqrt_le_iff.mp hs with ⟨_, hle⟩
      have : ((sampleVar values : ℚ) : ℝ) ≤ ((1 / 10 ^ 18 : ℚ) : ℝ) := by
        calc ((sampleVar values : ℚ) : ℝ) ≤ (1 / 10 ^ 9 : ℝ) ^ 2 := hle
          _ = ((1 / 10 ^ 18 : ℚ) : ℝ) := by norm_num
      exact_mod_cast this
    · exact Or.inr hn

lemma zValues_rank (values : List ℚ) (desc : Bool) (h : usesRankSpread values = true) :
    zValues values desc = (rankSpreadZ values desc).map (fun (q : ℚ) => (q : ℝ)) := by
  rw [zValues, if_pos h]

lemma zValues_zscore (values : List ℚ) (desc : Bool) (h : ¬ usesRankSpread values = true) :
    zValues values desc = values.map (fun (v : ℚ) =>
      if desc then ((v : ℝ) - (meanVal values : ℝ)) / Real.sqrt ((sampleVar values : ℝ))
      else ((meanVal values : ℝ) - (v : ℝ)) / Real.sqrt ((sampleVar values : ℝ))) := by
  rw [zValues, if_neg h]

lemma zValues_triple_ones :
    zValues [1, 1, 1] true = [(2 : ℝ), 1, 0] := by
  rw [zValues_rank _ _ (by decide)]
  have h : rankSpreadZ [1, 1, 1] true = [2, 1, 0] := by decide
  rw [h]
  norm_num

lemma sampleWeight_of_pos (t s : ℤ) (ht : 0 < t) :
    sampleWeight t s = Real.sqrt ((s : ℝ) / ((s : ℝ) + (t : ℝ))) := by
  rw [sampleWeight, if_pos ht]

lemma sampleWeight_of_nonpos (t s : ℤ) (ht : ¬ 0 < t) : sampleWeight t s = 1 := by
  rw [sampleWeight, if_neg ht]

lemma sampleWeight_strictMono (t s1 s2 : ℤ) (ht : 0 < t) (hs1 : 0 ≤ s1) (h12 : s1 < s2) :
    sampleWeight t s1 < sampleWeight t s2 := by
  rw [sampleWeight_of_pos t s1 ht, sampleWeight_of_pos t s2 ht]
  have htr : (0 : ℝ) < (t : ℝ) := by exact_mod_cast ht
  have hs1r : (0 : ℝ) ≤ (s1 : ℝ) := by exact_mod_cast hs1
  have h12r : (s1 : ℝ) < (s2 : ℝ) := by exact_mod_cast h12
  have hd1 : (0 : ℝ) < (s1 : ℝ) + (t : ℝ) := by linarith
  have hd2 : (0 : ℝ) < (s2 : ℝ) + (t : ℝ) := by linarith
  apply Real.sqrt_lt_sqrt (div_nonneg hs1r (le_of_lt hd1))
  rw [div_lt_div_iff₀ hd1 hd2]
  nlinarith

lemma sampleWeight_tendsto_one (t : ℤ) (ht : 0 < t) :
    Filter.Tendsto (fun n : ℕ => sampleWeight t (n : ℤ)) Filter.atTop (nhds 1) := by
  have hfun : (fun n : ℕ => sampleWeight t (n : ℤ)) =
      (fun x : ℝ => Real.sqrt x) ∘ (fun n : ℕ => (n : ℝ) / ((n : ℝ) + (t : ℝ))) := by
    funext n
    rw [Function.comp_apply, sampleWeight_of_pos t (n : ℤ) ht]
    norm_num
  rw [hfun]
  have h1 : Filter.Tendsto (fun n : ℕ => (n : ℝ) / ((n : ℝ) + (t : ℝ)))
      Filter.atTop (nhds 1) := tendsto_natCast_div_add_atTop (t : ℝ)
  have h2 : Filter.Tendsto (fun x : ℝ => Real.sqrt x) (nhds 1) (nhds 1) := by
    have := Real.continuous_sqrt.tendsto 1
    rwa [Real.sqrt_one] at this
  exact h2.comp h1

lemma zValues_pair_tied :
    zValues [2 / 5, 2 / 5] true = [(2 : ℝ), 0] := by
  rw [zValues_rank _ _ (by decide)]
  have h : rankSpreadZ [2 / 5, 2 / 5] true = [2, 0] := by decide
  rw [h]
  norm_num

lemma fmt3_natCast (n : ℕ) : fmt3 (n : ℚ) = natChars n ++ ('.' :: '0' :: '0' :: ['0']) := by
  rw [fmt3, if_neg (not_lt.mpr (by positivity))]
  have h1 : (n : ℚ) * 1000 = ((n * 1000 : ℕ) : ℚ) := by push_cast; ring
  rw [h1, round_natCast, Int.toNat_natCast, fmt3Core,
    Nat.mul_div_cancel n (by norm_num), Nat.mul_mod_left]
  rfl

/-! ### Helper lemmas: transporting score-independent facts through spacing -/

lemma map_of_eraseScore_eq {α : Type} (f : Top50Entry → α) (hf : ∀ e, f (eraseScore e) = f e)
    (l1 l2 : List Top50Entry) (h : l1.map eraseScore = l2.map eraseScore) :
    l1.map f = l2.map f := by
  have h1 := congrArg (List.map f) h
  rw [List.map_map, List.map_map] at h1
  rwa [show f ∘ eraseScore = f from funext hf] at h1

lemma countP_of_eraseScore_eq (p : Top50Entry → Bool) (hp : ∀ e, p (eraseScore e) = p e)
    (l1 l2 : List Top50Entry) (h : l1.map eraseScore = l2.map eraseScore) :
    l1.countP p = l2.countP p := by
  have h1 := congrArg (List.countP p) h
  rw [List.countP_map, List.countP_map] at h1
  rwa [show (p ∘ eraseScore) = p from funext hp] at h1

lemma length_of_eraseScore_eq (l1 l2 : List Top50Entry)
    (h : l1.map eraseScore = l2.map eraseScore) : l1.length = l2.length := by
  have h1 := congrArg List.length h
  rwa [List.length_map, List.length_map] at h1

/-! ## Claim theorems -/

/-- C1: for every run date, lookback state and candidate row list, the
selected Top-50 list — both as produced by `_select_top50` and after the
final spacing pass applied by `generate_top50` — has pairwise-distinct
`entity_id`s, `rank`s forming exactly the dense sequence `1..len`, at most
`50` entries, and at most `MAX_PER_PATTERN_PER_DAY = 5` entries from any one
pattern. -/
theorem c1_selection_invariants (d : ℕ) (rows : List SelRow) (r50 r10 : ℤ → ℕ) :
    (((selectTop50 d rows r50 r10).map Top50Entry.entity_id).Nodup ∧
      (selectTop50 d rows r50 r10).map Top50Entry.rank =
        List.range' 1 (selectTop50 d rows r50 r10).length ∧
      (selectTop50 d rows r50 r10).length ≤ 50 ∧
      ∀ q, ((selectTop50 d rows r50 r10).filter (fun e => e.pattern_id = q)).length ≤
        MAX_PER_PATTERN_PER_DAY) ∧
    ((generateTop50 d rows r50 r10).map Top50Entry.entity_id).Nodup ∧
      (generateTop50 d rows r50 r10).map Top50Entry.rank =
        List.range' 1 (generateTop50 d rows r50 r10).length ∧
      (generateTop50 d rows r50 r10).length ≤ 50 ∧
      ∀ q, ((generateTop50 d rows r50 r10).filter (fun e => e.pattern_id = q)).length ≤
        MAX_PER_PATTERN_PER_DAY := by
  obtain ⟨h1, h2, h3, h4⟩ := selectTop50_props d rows r50 r10
  have hf := applyMinScoreSpacing_frame MIN_REL_GAP (selectTop50 d rows r50 r10)
  have hfe : ∀ e, Top50Entry.entity_id (eraseScore e) = Top50Entry.entity_id e := fun e => rfl
  have hfr : ∀ e, Top50Entry.rank (eraseScore e) = Top50Entry.rank e := fun e => rfl
  have hent := map_of_eraseScore_eq Top50Entry.entity_id hfe _ _ hf
  have hrank := map_of_eraseScore_eq Top50Entry.rank hfr _ _ hf
  have hlen := length_of_eraseScore_eq _ _ hf
  refine ⟨⟨h1, h2, h3, h4⟩, ?_, ?_, ?_, ?_⟩
  · rw [generateTop50, hent]
    exact h1
  · rw [generateTop50, hrank, hlen]
    exact h2
  · rw [generateTop50, applyMinScoreSpacing_length]
    exact h3
  · intro q
    rw [generateTop50]
    calc ((applyMinScoreSpacing MIN_REL_GAP (selectTop50 d rows r50 r10)).filter
          (fun e => e.pattern_id = q)).length
        = (applyMinScoreSpacing MIN_REL_GAP (selectTop50 d rows r50 r10)).countP
            (fun e => e.pattern_id = q) := (List.countP_eq_length_filter _ _).symm
      _ = (selectTop50 d rows r50 r10).countP (fun e => e.pattern_id = q) :=
          countP_of_eraseScore_eq (fun e => decide (e.pattern_id = q)) (fun e => rfl) _ _ hf
      _ = ((selectTop50 d rows r50 r10).filter (fun e => e.pattern_id = q)).length :=
          List.countP_eq_length_filter _ _
      _ ≤ MAX_PER_PATTERN_PER_DAY := h4 q

/-- C10: `apply_min_score_spacing` preserves the list's length and order and
every non-score field, leaves every resulting score non-negative, clamps
negative input scores to exactly `0`, and consequently the final Top-50
snapshot produced by `generate_top50` never carries a negative score. -/
theorem c10_spacing_frame (g : ℚ) (rows : List Top50Entry) :
    (applyMinScoreSpacing g rows).length = rows.length ∧
      (applyMinScoreSpacing g rows).map eraseScore = rows.map eraseScore ∧
      (∀ e ∈ applyMinScoreSpacing g rows, 0 ≤ e.score) ∧
      (∀ pr ∈ (applyMinScoreSpacing g rows).zip rows, pr.2.score < 0 → pr.1.score = 0) ∧
      ∀ (d : ℕ) (srows : List SelRow) (r50 r10 : ℤ → ℕ),
        ∀ e ∈ generateTop50 d srows r50 r10, 0 ≤ e.score :=
  ⟨applyMinScoreSpacing_length g rows, applyMinScoreSpacing_frame g rows,
    applyMinScoreSpacing_nonneg g rows, applyMinScoreSpacing_clampneg g rows,
    fun d srows r50 r10 => applyMinScoreSpacing_nonneg MIN_REL_GAP (selectTop50 d srows r50 r10)⟩

/-- Witness for C10 at a concrete input: a single row with score `-5` is
clamped to `0`. -/
theorem c10_spacing_frame_witness :
    (entryWithScore 1 (-5)).score < 0 ∧
      ((applyMinScoreSpacing MIN_REL_GAP [entryWithScore 1 (-5)]).headD
        (entryWithScore 1 1)).score = 0 := by
  refine ⟨by decide, ?_⟩
  exact (c10_spacing_frame MIN_REL_GAP [entryWithScore 1 (-5)]).2.2.2.1
    ((applyMinScoreSpacing MIN_REL_GAP [entryWithScore 1 (-5)]).headD (entryWithScore 1 1),
      entryWithScore 1 (-5)) (by decide) (by decide)

/-- C2 (amended): both plateau-breaking passes enforce the claimed relative
spacing `score[i] ≤ score[i-1] * (1 - min_gap)` — with `min_gap = 1%` on the
per-pattern pipeline output (`compute_scores`) and `min_gap = MIN_REL_GAP =
0.011` on the final Top-50 list — and the sequence is strictly decreasing at
every position whose predecessor has a positive score.  (Strictness fails at
nonpositive scores; see the counterexample.) -/
theorem c2_score_spacing :
    (∀ (p : PatternTemplate) (rows : List RawRow) (mw : ℤ → ℝ),
        List.Chain' (fun a b => b.score ≤ a.score * (1 - 1 / 100))
          (computeScores p rows mw)) ∧
    (∀ (p : PatternTemplate) (rows : List RawRow) (mw : ℤ → ℝ),
        List.Chain' (fun a b : ScoredRow ℝ => 0 < a.score → b.score < a.score)
          (computeScores p rows mw)) ∧
    (∀ g : ℚ, g ≤ 1 → ∀ rows : List Top50Entry,
        List.Chain' (fun a b => b.score ≤ a.score * (1 - g)) (applyMinScoreSpacing g rows)) ∧
    (∀ rows : List Top50Entry,
        List.Chain' (fun a b => 0 < a.score → b.score < a.score)
          (applyMinScoreSpacing MIN_REL_GAP rows)) ∧
    ∀ (d : ℕ) (srows : List SelRow) (r50 r10 : ℤ → ℕ),
      List.Chain' (fun a b => b.score ≤ a.score * (1 - MIN_REL_GAP))
        (generateTop50 d srows r50 r10) := by
  have hconv : (1 : ℝ) - 1 / 100 = 99 / 100 := by norm_num
  refine ⟨?_, ?_, ?_, ?_, ?_⟩
  · intro p rows mw
    rw [hconv]
    exact computeScores_gapChain p rows mw
  · intro p rows mw
    refine List.Chain'.imp ?_ (computeScores_gapChain p rows mw)
    intro a b hab hpos
    nlinarith
  · intro g hg rows
    exact applyMinScoreSpacing_gapChain g hg rows
  · intro rows
    refine List.Chain'.imp ?_
      (applyMinScoreSpacing_gapChain MIN_REL_GAP (by norm_num [MIN_REL_GAP]) rows)
    intro a b hab hpos
    rw [MIN_REL_GAP] at hab
    nlinarith
  · intro d srows r50 r10
    rw [generateTop50]
    exact applyMinScoreSpacing_gapChain MIN_REL_GAP (by norm_num [MIN_REL_GAP]) _

/-- C2 counterexample: two zero scores — exactly what the pipeline produces
for two candidates with `sample_size = 0` under a positive `target_sample` —
pass through both plateau passes unchanged, so the output scores are equal
and the sequence is NOT strictly decreasing, contradicting the claim's
unconditional strictness. -/
theorem c2_score_spacing_counterexample :
    (plateauPass [scoredZeroA, scoredZeroB]).map ScoredRow.score = [0, 0] ∧
      ¬ ((plateauPass [scoredZeroA, scoredZeroB]).map ScoredRow.score).getD 1 0 <
          ((plateauPass [scoredZeroA, scoredZeroB]).map ScoredRow.score).getD 0 0 ∧
      (applyMinScoreSpacing MIN_REL_GAP [entryWithScore 1 0, entryWithScore 2 0]).map
        Top50Entry.score = [0, 0] ∧
      ¬ ((applyMinScoreSpacing MIN_REL_GAP [entryWithScore 1 0, entryWithScore 2 0]).map
            Top50Entry.score).getD 1 0 <
          ((applyMinScoreSpacing MIN_REL_GAP [entryWithScore 1 0, entryWithScore 2 0]).map
            Top50Entry.score).getD 0 0 := by
  decide

/-- Witness for C2 at the spec's concrete input: final-list scores `100` and
`99.95` under `min_gap = 0.011` come out as `100` and exactly
`100 * 0.989 = 98.9`, and satisfy the spacing chain. -/
theorem c2_score_spacing_witness :
    (applyMinScoreSpacing MIN_REL_GAP
        [entryWithScore 1 100, entryWithScore 2 (9995 / 100)]).map Top50Entry.score =
      [100, 989 / 10] ∧
    MIN_REL_GAP ≤ 1 ∧
    List.Chain' (fun a b => b.score ≤ a.score * (1 - MIN_REL_GAP))
      (applyMinScoreSpacing MIN_REL_GAP [entryWithScore 1 100, entryWithScore 2 (9995 / 100)]) :=
  ⟨by decide, by decide, c2_score_spacing.2.2.1 MIN_REL_GAP (by decide) _⟩

/-- C3 (amended): the Top-K merge is NOT randomized per day: the selection is
a deterministic function of the stored rows and lookback maps alone, and the
run date only stamps the `run_date` field — the selections for any two dates
agree in every other field, both before and after the final spacing pass. -/
theorem c3_date_invariance (d d' : ℕ) (rows : List SelRow) (r50 r10 : ℤ → ℕ) :
    (selectTop50 d rows r50 r10).map (setDate 0) =
      (selectTop50 d' rows r50 r10).map (setDate 0) ∧
    (generateTop50 d rows r50 r10).map (setDate 0) =
      (generateTop50 d' rows r50 r10).map (setDate 0) := by
  rw [selectTop50_setDate, selectTop50_setDate, generateTop50_setDate, generateTop50_setDate]
  exact ⟨rfl, rfl⟩

/-- C3 counterexample: two candidates from different patterns tied on score;
for two different run dates the merge accepts them in the identical stored
order, with the first-stored pattern winning the tie both days — there is no
date-seeded pseudo-random pattern order. -/
theorem c3_date_invariance_counterexample :
    (mkSelRow 1 "pat_a".toList 5).result.score = (mkSelRow 2 "pat_b".toList 5).result.score ∧
      (selectTop50 737790 [mkSelRow 1 "pat_a".toList 5, mkSelRow 2 "pat_b".toList 5]
        (fun _ => 0) (fun _ => 0)).map Top50Entry.pattern_id =
          ["pat_a".toList, "pat_b".toList] ∧
      (selectTop50 737791 [mkSelRow 1 "pat_a".toList 5, mkSelRow 2 "pat_b".toList 5]
        (fun _ => 0) (fun _ => 0)).map Top50Entry.pattern_id =
          ["pat_a".toList, "pat_b".toList] := by
  decide

/-- C4 (amended): the normalization branch condition matches the source's
`stdev ≤ 1e-9 or n < 5` exactly (stated through the square root); the
degenerate branch is the rank-spread transform and the other branch the
z-score transform with the claimed directional formulas; the stable rank is
injective (ties keep original order, no two candidates collide); for at least
two candidates the rank-spread scores all lie in `[0, 2]` and attain both
endpoints; a single candidate receives `[2.0]` (NOT spanning down to `0.0`,
which is the corrected detail); and three tied candidates receive exactly
`[2, 1, 0]` in original order. -/
theorem c4_normalization_policy :
    (∀ values : List ℚ, usesRankSpread values = true ↔
        (Real.sqrt ((sampleVar values : ℚ) : ℝ) ≤ 1 / 10 ^ 9 ∨ values.length < 5)) ∧
    (∀ (values : List ℚ) (desc : Bool), usesRankSpread values = true →
        zValues values desc = (rankSpreadZ values desc).map (fun (q : ℚ) => (q : ℝ))) ∧
    (∀ (values : List ℚ) (desc : Bool), ¬ usesRankSpread values = true →
        zValues values desc = values.map (fun (v : ℚ) =>
          if desc then ((v : ℝ) - (meanVal values : ℝ)) / Real.sqrt ((sampleVar values : ℝ))
          else ((meanVal values : ℝ) - (v : ℝ)) / Real.sqrt ((sampleVar values : ℝ)))) ∧
    (∀ (values : List ℚ) (desc : Bool) (i j : ℕ), i < values.length → j < values.length →
        i ≠ j → rankPos values desc i ≠ rankPos values desc j) ∧
    (∀ (values : List ℚ) (desc : Bool), 2 ≤ values.length →
        (∀ z ∈ rankSpreadZ values desc, 0 ≤ z ∧ z ≤ 2) ∧
          (2 : ℚ) ∈ rankSpreadZ values desc ∧ (0 : ℚ) ∈ rankSpreadZ values desc) ∧
    (∀ (v : ℚ) (desc : Bool), rankSpreadZ [v] desc = [2]) ∧
    zValues [1, 1, 1] true = [(2 : ℝ), 1, 0] :=
  ⟨usesRankSpread_iff_sqrt, zValues_rank, zValues_zscore, rankPos_inj, rankSpreadZ_facts,
    rankSpreadZ_singleton, zValues_triple_ones⟩

/-- C4 counterexample: a single candidate is in the rank-spread regime
(count below 5), yet its raw score list is `[2.0]` — the worst candidate does
not receive `0.0` and the scores do not span `[0.0, 2.0]` as claimed. -/
theorem c4_normalization_policy_counterexample :
    usesRankSpread [1] = true ∧ zValues [1] true = [(2 : ℝ)] ∧
      ¬ (0 : ℝ) ∈ zValues [1] true := by
  have h : zValues [1] true = (rankSpreadZ [1] true).map (fun (q : ℚ) => (q : ℝ)) :=
    zValues_rank _ _ (by decide)
  refine ⟨by decide, ?_, ?_⟩
  · rw [h, rankSpreadZ_singleton]
    norm_num
  · rw [h, rankSpreadZ_singleton]
    norm_num

/-- Witness for C4: the branch equations and endpoint facts instantiated at
concrete inputs. -/
theorem c4_normalization_policy_witness :
    (zValues [3, 4] false = (rankSpreadZ [3, 4] false).map (fun (q : ℚ) => (q : ℝ))) ∧
      (zValues [1, 2, 3, 4, 5] true = [1, 2, 3, 4, 5].map (fun (v : ℚ) =>
        if true then ((v : ℝ) - (meanVal [1, 2, 3, 4, 5] : ℝ)) /
            Real.sqrt ((sampleVar [1, 2, 3, 4, 5] : ℝ))
        else ((meanVal [1, 2, 3, 4, 5] : ℝ) - (v : ℝ)) /
            Real.sqrt ((sampleVar [1, 2, 3, 4, 5] : ℝ)))) ∧
      rankPos [7, 7] true 0 ≠ rankPos [7, 7] true 1 ∧
      (2 : ℚ) ∈ rankSpreadZ [7, 7, 7] true ∧ (0 : ℚ) ∈ rankSpreadZ [7, 7, 7] true :=
  ⟨c4_normalization_policy.2.1 [3, 4] false (by decide),
    c4_normalization_policy.2.2.1 [1, 2, 3, 4, 5] true (by decide),
    c4_normalization_policy.2.2.2.1 [7, 7] true 0 1 (by decide) (by decide) (by decide),
    (c4_normalization_policy.2.2.2.2.1 [7, 7, 7] true (by decide)).2.1,
    (c4_normalization_policy.2.2.2.2.1 [7, 7, 7] true (by decide)).2.2⟩

/-- C5: the confidence weight is `sqrt(s / (s + target))` when
`target_sample > 0` and `1.0` otherwise; for fixed positive target it is
strictly increasing in the sample size and tends to `1` as the sample size
tends to infinity; and in the spec's scenario — a descending pattern with
`target_sample = 50` and two candidates tied at metric `0.400` with samples
`60` and `10` — the first candidate's final score (normalized value times
confidence weight times the positive static and market weights, scoring.py
line 114) strictly exceeds the second's. -/
theorem c5_confidence_weight :
    (∀ t s : ℤ, (0 < t → sampleWeight t s = Real.sqrt ((s : ℝ) / ((s : ℝ) + (t : ℝ)))) ∧
        (¬ 0 < t → sampleWeight t s = 1)) ∧
    (∀ t s1 s2 : ℤ, 0 < t → 0 ≤ s1 → s1 < s2 → sampleWeight t s1 < sampleWeight t s2) ∧
    (∀ t : ℤ, 0 < t →
        Filter.Tendsto (fun n : ℕ => sampleWeight t (n : ℤ)) Filter.atTop (nhds 1)) ∧
    ∀ uw pw mwA mwB : ℝ, 0 < uw → 0 < pw → 0 < mwA → 0 < mwB →
      (zValues [2 / 5, 2 / 5] true).getD 1 0 * sampleWeight 50 10 * uw * pw * mwB <
        (zValues [2 / 5, 2 / 5] true).getD 0 0 * sampleWeight 50 60 * uw * pw * mwA := by
  refine ⟨fun t s => ⟨sampleWeight_of_pos t s, sampleWeight_of_nonpos t s⟩,
    sampleWeight_strictMono, sampleWeight_tendsto_one, ?_⟩
  intro uw pw mwA mwB huw hpw hA hB
  rw [zValues_pair_tied]
  simp only [List.getD_cons_succ, List.getD_cons_zero]
  have hw : 0 < sampleWeight 50 60 := by
    rw [sampleWeight_of_pos 50 60 (by norm_num)]
    apply Real.sqrt_pos.mpr
    norm_num
  have hL : (0 : ℝ) * sampleWeight 50 10 * uw * pw * mwB = 0 := by ring
  rw [hL]
  have h2 : (0 : ℝ) < 2 := by norm_num
  exact mul_pos (mul_pos (mul_pos (mul_pos h2 hw) huw) hpw) hA

/-- Witness for C5: monotonicity and the tied-metric scenario at the spec's
concrete numbers. -/
theorem c5_confidence_weight_witness :
    sampleWeight 50 10 < sampleWeight 50 60 ∧
      (zValues [2 / 5, 2 / 5] true).getD 1 0 * sampleWeight 50 10 * 1 * 1 * 1 <
        (zValues [2 / 5, 2 / 5] true).getD 0 0 * sampleWeight 50 60 * 1 * 1 * 1 :=
  ⟨c5_confidence_weight.2.1 50 10 60 (by norm_num) (by norm_num) (by norm_num),
    c5_confidence_weight.2.2.2 1 1 1 1 (by norm_num) (by norm_num) (by norm_num) (by norm_num)⟩

/-- C6 (amended): a validation failure makes `run_for_date` skip exactly that
pattern — the batch result is as if it were absent, and a whole batch of
patterns whose metrics resolve runs to completion evaluating precisely the
validation-passing ones.  But the unknown-metric fault is NOT isolated: it is
raised outside the `try/except`, so a single unknown metric aborts the batch.
A `last_n` window on a non-batter pattern never reaches the window check at
all: the banned-term scan rejects the pattern (the term `"wind"` is a
substring of the `"window"` key), so it is skipped and the batch survives. -/
theorem c6_fault_isolation :
    (∀ (p : PatternTemplate) (ps : List PatternTemplate), validatePattern p ≠ [] →
        runBatchGo (p :: ps) = runBatchGo ps) ∧
    (∀ ps : List PatternTemplate,
        (∀ p ∈ ps, validatePattern p = [] → buildQueryChecks p = .ok ()) →
        runBatchGo ps = .ok ((ps.filter (fun p => validatePattern p = [])).map
          (fun p => p.pattern_id))) ∧
    (∀ (p : PatternTemplate) (ps : List PatternTemplate) (e : List Char),
        validatePattern p = [] → buildQueryChecks p = .error e →
        runBatchGo (p :: ps) = .error e) ∧
    runForDate [pWindowPitcher, pGoodPattern] = .ok ["p_good".toList] ∧
    validatePattern pWindowPitcher ≠ [] :=
  ⟨runBatchGo_skip, runBatchGo_clean, runBatchGo_abort, by decide, by decide⟩

/-- C6 counterexample: a pattern with an unregistered metric and no override
passes validation, so it is not skipped; evaluating it raises `KeyError`
outside the `try/except` and the whole batch aborts — the valid pattern after
it is never evaluated, contradicting "every other enabled pattern is still
evaluated and the batch never aborts". -/
theorem c6_fault_isolation_counterexample :
    validatePattern pUnknownMetric = [] ∧
      runForDate [pUnknownMetric, pGoodPattern] =
        Except.error "Metric is not registered".toList ∧
      runForDate [pGoodPattern] = Except.ok ["p_good".toList] := by
  decide

/-- Witness for C6: the skip and abort clauses at concrete patterns. -/
theorem c6_fault_isolation_witness :
    runBatchGo [pWindowPitcher, pGoodPattern] = runBatchGo [pGoodPattern] ∧
      runBatchGo [pUnknownMetric] = Except.error "Metric is not registered".toList :=
  ⟨c6_fault_isolation.1 pWindowPitcher [pGoodPattern] (by decide),
    c6_fault_isolation.2.2.1 pUnknownMetric [] "Metric is not registered".toList
      (by decide) (by decide)⟩

/-- C7 (amended): whenever the new run fetches at least one candidate row,
the rows stored under `(run_date, pattern_id)` afterwards are exactly the
newly scored rows — prior rows for the key are deleted and the new ones
inserted, for ANY scoring function (in particular `compute_scores`).  But
when the fetch returns zero rows, `evaluate_pattern` returns before
`_persist_results` and the store — stale rows included — is left untouched. -/
theorem c7_supersede_on_rerun :
    (∀ (K : Type) [DecidableEq K] (db : List (ResultRow K)) (p : PatternTemplate) (d : ℕ)
        (fetched : List RawRow)
        (scoreFn : PatternTemplate → List RawRow → List (ScoredRow K)),
        fetched ≠ [] →
        ((evaluatePattern db p d fetched scoreFn).1.filter
            (fun r => r.run_date = d ∧ r.pattern_id = p.pattern_id)) =
          (scoreFn p fetched).map (toResultRow d p)) ∧
    ∀ (K : Type) [DecidableEq K] (db : List (ResultRow K)) (p : PatternTemplate) (d : ℕ)
      (scoreFn : PatternTemplate → List RawRow → List (ScoredRow K)),
      evaluatePattern db p d [] scoreFn = (db, []) := by
  constructor
  · intro K _ db p d fetched scoreFn h
    exact evaluatePattern_key_rows db p d fetched scoreFn h
  · intro K _ db p d scoreFn
    rw [evaluatePattern, if_pos rfl]

/-- C7 counterexample: a re-run whose query fetches zero candidate rows
leaves the earlier run's row for the same `(run_date, pattern_id)` key in the
store, contradicting "no stale rows remain regardless of how many candidate
rows the new run produces". -/
theorem c7_supersede_on_rerun_counterexample :
    staleResultRow.run_date = 5 ∧ staleResultRow.pattern_id = pGoodPattern.pattern_id ∧
      evaluatePattern [staleResultRow] pGoodPattern 5 []
        (fun _ _ => ([] : List (ScoredRow ℚ))) = ([staleResultRow], []) := by
  decide

/-- Witness for C7: with one fetched row, the stale row for the key is
replaced by the newly scored row. -/
theorem c7_supersede_on_rerun_witness :
    ((evaluatePattern [staleResultRow] pGoodPattern 5 [rowPlain]
        (fun _ _ => [scoredZeroA])).1.filter
      (fun r => r.run_date = 5 ∧ r.pattern_id = pGoodPattern.pattern_id)) =
      [scoredZeroA].map (toResultRow 5 pGoodPattern) :=
  c7_supersede_on_rerun.1 ℚ [staleResultRow] pGoodPattern 5 [rowPlain]
    (fun _ _ => [scoredZeroA]) (by decide)

/-- C8 (amended): the cleaning loop is a filter-and-coerce — a row is dropped
exactly when its metric value is `None`, unconvertible, or NaN (infinities
are KEPT); a sample size that is missing or fails `int()` is coerced to `0`
and the row kept (so is any negative integer).  An input with zero surviving
rows yields the empty result list from `compute_scores`, not an error. -/
theorem c8_row_coercion :
    (∀ rows : List RawRow,
        cleanRows rows =
          (rows.filter (fun r => (keepMetric r.metric_value).isSome)).map coerceRow) ∧
    ∀ (p : PatternTemplate) (rows : List RawRow) (mw : ℤ → ℝ),
      computeScores p rows mw = [] ↔ cleanRows rows = [] :=
  ⟨cleanRows_eq_filterMap, computeScores_eq_nil_iff⟩

/-- C8 counterexample: a `+inf` metric row is kept (the claim demands finite
parses be required), and a row whose sample size does not parse is kept with
sample `0` (the claim says such rows are dropped). -/
theorem c8_row_coercion_counterexample :
    cleanRows [rowInfMetric, rowBadSample] =
      [⟨1, NumVal.posInf, 7⟩, ⟨2, NumVal.fin 1, 0⟩] := by
  decide

/-- C9 (amended): the rendered description substitutes `player_name`,
`team_name` and `metric_value` (in that dict order) into the template; the
metric is ALWAYS formatted with exactly three decimal places — an
integer-valued metric `n` renders as `n.000`, never without decimals — and
`\x7b\x7bsample_size\x7d\x7d` is NOT substituted (the renderer has no
replacement entry, nor even a parameter, for the sample size); an empty
template renders empty. -/
theorem c9_description_rendering :
    (∀ n : ℕ, fmt3 (n : ℚ) = natChars n ++ ('.' :: '0' :: '0' :: ['0'])) ∧
      renderDescription
          "\x7b\x7bplayer_name\x7d\x7d (\x7b\x7bteam_name\x7d\x7d) hit \x7b\x7bmetric_value\x7d\x7d in \x7b\x7bsample_size\x7d\x7d games".toList
          (some "Aaron Judge".toList) (some "NYY".toList) (some (2 / 5)) =
        "Aaron Judge (NYY) hit 0.400 in \x7b\x7bsample_size\x7d\x7d games".toList ∧
      ∀ (player team : Option (List Char)) (metric : Option ℚ),
        renderDescription [] player team metric = [] := by
  refine ⟨fmt3_natCast, by decide, ?_⟩
  intro player team metric
  rw [renderDescription.eq_def, if_pos rfl]

/-- C9 counterexample: with an integer-valued metric `2.0` the source renders
`2.000` (three decimals, not `2` as the claim states), and the
`\x7b\x7bsample_size\x7d\x7d` placeholder survives un-substituted, while the
claim says it is replaced. -/
theorem c9_description_rendering_counterexample :
    renderDescription
        "\x7b\x7bplayer_name\x7d\x7d (\x7b\x7bteam_name\x7d\x7d) hit \x7b\x7bmetric_value\x7d\x7d in \x7b\x7bsample_size\x7d\x7d games".toList
        (some "Aaron Judge".toList) (some "NYY".toList) (some 2) =
      "Aaron Judge (NYY) hit 2.000 in \x7b\x7bsample_size\x7d\x7d games".toList ∧
      renderDescription
          "\x7b\x7bplayer_name\x7d\x7d (\x7b\x7bteam_name\x7d\x7d) hit \x7b\x7bmetric_value\x7d\x7d in \x7b\x7bsample_size\x7d\x7d games".toList
          (some "Aaron Judge".toList) (some "NYY".toList) (some 2) ≠
        "Aaron Judge (NYY) hit 2 in 7 games".toList ∧
      containsSub (renderDescription
          "\x7b\x7bplayer_name\x7d\x7d (\x7b\x7bteam_name\x7d\x7d) hit \x7b\x7bmetric_value\x7d\x7d in \x7b\x7bsample_size\x7d\x7d games".toList
          (some "Aaron Judge".toList) (some "NYY".toList) (some 2)) sampleSizePat = true := by
  decide
